import Mathlib

/-!
Verification of the dynamic portfolio renderer (`PortfolioRenderer`) and the
theme manager (`ThemeManager`) of the `about-me` repository.

The DOM is shallowly embedded as a tree of nodes.  An `innerHTML` assignment
stores the assigned string as an opaque `raw` chunk (the embedding does not
re-parse HTML text); `textContent` assignment stores a `text` node.  The
selector machinery of the source (`querySelector` for id, class, tag and
`meta[name="description"]` selectors) is embedded as a first-match pre-order
search over the tree, together with a first-match in-place update used to
model DOM mutation of the selected element.
-/

/-- A DOM node: an element with a tag, attributes and children, a text node
(`textContent` assignment), or an opaque chunk of markup (`innerHTML`
assignment, kept unparsed). -/
inductive Node where
  | elem (tag : String) (attrs : List (String × String)) (children : List Node)
  | text (s : String)
  | raw (html : String)

mutual

/-- Boolean structural equality of nodes. -/
def Node.beq : Node → Node → Bool
  | .elem t a cs, .elem t' a' cs' => t = t' && a = a' && Node.beqList cs cs'
  | .text s, .text s' => s = s'
  | .raw s, .raw s' => s = s'
  | _, _ => false

/-- Boolean structural equality of node forests. -/
def Node.beqList : List Node → List Node → Bool
  | [], [] => true
  | n :: ns, m :: ms => Node.beq n m && Node.beqList ns ms
  | _, _ => false

end

mutual

theorem Node.beq_iff : ∀ (a b : Node), Node.beq a b = true ↔ a = b
  | .elem t a cs, .elem t' a' cs' => by
    simp [Node.beq, Node.beqList_iff cs cs']
    tauto
  | .elem _ _ _, .text _ => by simp [Node.beq]
  | .elem _ _ _, .raw _ => by simp [Node.beq]
  | .text _, .elem _ _ _ => by simp [Node.beq]
  | .text s, .text s' => by simp [Node.beq]
  | .text _, .raw _ => by simp [Node.beq]
  | .raw _, .elem _ _ _ => by simp [Node.beq]
  | .raw _, .text _ => by simp [Node.beq]
  | .raw s, .raw s' => by simp [Node.beq]

theorem Node.beqList_iff : ∀ (as bs : List Node), Node.beqList as bs = true ↔ as = bs
  | [], [] => by simp [Node.beqList]
  | [], _ :: _ => by simp [Node.beqList]
  | _ :: _, [] => by simp [Node.beqList]
  | n :: ns, m :: ms => by
    simp [Node.beqList, Node.beq_iff n m, Node.beqList_iff ns ms]

end

instance : DecidableEq Node := fun a b => decidable_of_iff _ (Node.beq_iff a b)

/-- Children of a node (empty for non-elements). -/
def Node.kids : Node → List Node
  | .elem _ _ cs => cs
  | _ => []

/-- Attribute lookup on an attribute list (first binding wins, as in a DOM
element, which holds at most one binding per attribute name). -/
def attrGet (attrs : List (String × String)) (k : String) : Option String :=
  match attrs with
  | [] => none
  | (k', v) :: rest => if k' = k then some v else attrGet rest k

/-- Set (or add) an attribute binding, as a property assignment such as
`metaDesc.content = ...` does. -/
def attrSet (attrs : List (String × String)) (k v : String) : List (String × String) :=
  match attrs with
  | [] => [(k, v)]
  | (k', v') :: rest => if k' = k then (k, v) :: rest else (k', v') :: attrSet rest k v

/-- Attribute of a node (`none` for non-elements). -/
def Node.attr (n : Node) (k : String) : Option String :=
  match n with
  | .elem _ attrs _ => attrGet attrs k
  | _ => none

/-- `s.startsWith p` (computed on the character list). -/
def strStartsWith (s p : String) : Bool := p.data.isPrefixOf s.data

/-- The class tokens of a `class` attribute value (split on spaces, computed
on the character list). -/
def classTokens (v : String) : List String := (v.data.splitOn ' ').map String.mk

/-- Does the node match the class selector `.c`? -/
def hasClass (n : Node) (c : String) : Bool :=
  match n.attr "class" with
  | some v => (classTokens v).contains c
  | none => false

/-- Does the node match the id selector `#i`? -/
def hasId (n : Node) (i : String) : Bool := n.attr "id" = some i

/-- Does the node match a tag selector? -/
def hasTag (n : Node) (t : String) : Bool :=
  match n with
  | .elem tg _ _ => tg = t
  | _ => false

/-- Does the node match the selector `meta[name="description"]`? -/
def isMetaDesc (n : Node) : Bool :=
  hasTag n "meta" && n.attr "name" = some "description"

mutual

/-- First pre-order match of `p` among the strict descendants of `n`
(`Element.querySelector` never matches the element itself). -/
def findInNode (p : Node → Bool) : Node → Option Node
  | .elem _ _ cs => findInList p cs
  | _ => none

/-- First pre-order match of `p` in a forest of nodes. -/
def findInList (p : Node → Bool) : List Node → Option Node
  | [] => none
  | n :: rest =>
    if p n then some n
    else
      match findInNode p n with
      | some m => some m
      | none => findInList p rest

end

mutual

/-- Rewrite the first pre-order match of `p` among the strict descendants of
`n` by `f`; `none` when there is no match. -/
def updInNode (p : Node → Bool) (f : Node → Node) : Node → Option Node
  | .elem t a cs =>
    match updInList p f cs with
    | some cs' => some (.elem t a cs')
    | none => none
  | _ => none

/-- Rewrite the first pre-order match of `p` in a forest by `f`; `none` when
there is no match. -/
def updInList (p : Node → Bool) (f : Node → Node) : List Node → Option (List Node)
  | [] => none
  | n :: rest =>
    if p n then some (f n :: rest)
    else
      match updInNode p f n with
      | some n' => some (n' :: rest)
      | none =>
        match updInList p f rest with
        | some rest' => some (n :: rest')
        | none => none

end

/-- `document.querySelector`: first match among the root's descendants. -/
def docFind (p : Node → Bool) (root : Node) : Option Node := findInNode p root

/-- Mutation of the element selected by `document.querySelector`: rewrite the
first match by `f`, leaving the document unchanged when nothing matches (the
source always guards such mutations by a null check, or the selected element
is the one being rewritten). -/
def docUpdate (p : Node → Bool) (f : Node → Node) (root : Node) : Node :=
  match updInNode p f root with
  | some root' => root'
  | none => root

/-- Replace the children of an element (e.g. clearing via `innerHTML = ''`
followed by `appendChild` calls). -/
def setKids (n : Node) (cs : List Node) : Node :=
  match n with
  | .elem t a _ => .elem t a cs
  | other => other

/-- `element.appendChild(child)`. -/
def appendChild (n : Node) (c : Node) : Node :=
  match n with
  | .elem t a cs => .elem t a (cs ++ [c])
  | other => other

/-- `element.textContent = s`. -/
def setText (s : String) (n : Node) : Node := setKids n [Node.text s]

/-- `element.innerHTML = s` (the string is kept as an opaque chunk). -/
def setInner (s : String) (n : Node) : Node := setKids n [Node.raw s]

/-! ## Data Document model (schema of `data.json`, §3 of the source contract)

Optional JSON fields are `Option`s; the polymorphic `items` payload of a
section is a sum over the shapes the five registered renderers consume, with
the literal string sentinel `"contacts"` as its own constructor. -/

/-- A contact entry `{label, url, icon}`. -/
structure Contact where
  label : String
  url : String
  icon : String
deriving DecidableEq

/-- A subtitle hyperlink `{text, url}` used by `renderLinkedText`. -/
structure TLink where
  text : String
  url : String
deriving DecidableEq

/-- A timeline subtitle `{text, links?}`. -/
structure Subtitle where
  text : String
  links : Option (List TLink)
deriving DecidableEq

/-- A timeline detail `{text, link?, tags?}`. -/
structure Detail where
  text : String
  link : Option TLink
  tags : Option (List String)
deriving DecidableEq

/-- A timeline item `{title, subtitle?, period?, details?}`. -/
structure TimelineItem where
  title : String
  subtitle : Option Subtitle
  period : Option String
  details : Option (List Detail)
deriving DecidableEq

/-- A card item `{title, content, tags?}`. -/
structure Card where
  title : String
  content : String
  tags : Option (List String)
deriving DecidableEq

/-- The polymorphic `items` payload of a section.  `contactsRef` is the
literal string `"contacts"`. -/
inductive Items where
  | contactsRef
  | contactList (cs : List Contact)
  | timeline (its : List TimelineItem)
  | categories (entries : List (String × List String))
  | cards (cs : List Card)
deriving DecidableEq

/-- A section of the Data Document. -/
structure Sec where
  id : String
  title : String
  type : String
  items : Option Items
  content : Option String
deriving DecidableEq

/-- `meta` field. -/
structure MetaInfo where
  title : Option String
  description : Option String
deriving DecidableEq

/-- `personal` field. -/
structure Personal where
  name : Option String
  title : Option String
  summary : Option String
deriving DecidableEq

/-- `theme.colors`. -/
structure ThemeColors where
  primary : Option String
  primaryDark : Option String
deriving DecidableEq

/-- `theme.fonts`. -/
structure ThemeFonts where
  primary : Option String
deriving DecidableEq

/-- `theme.layout`. -/
structure ThemeLayout where
  containerWidth : Option String
deriving DecidableEq

/-- `theme` field. -/
structure ThemeCfg where
  colors : Option ThemeColors
  fonts : Option ThemeFonts
  layout : Option ThemeLayout
deriving DecidableEq

/-- `config.navigation`. -/
structure NavCfg where
  enabled : Bool
deriving DecidableEq

/-- `config` field. -/
structure Config where
  navigation : Option NavCfg
deriving DecidableEq

/-- The Data Document. -/
structure Data where
  meta : Option MetaInfo
  personal : Option Personal
  contacts : Option (List Contact)
  theme : Option ThemeCfg
  config : Option Config
  sections : Option (List Sec)
deriving DecidableEq

/-- The page: `document.title`, the DOM tree, and the global style state
touched by `applyTheme` (CSS custom properties of the root element and the
body font). -/
structure Document where
  title : String
  root : Node
  styleVars : List (String × String)
  bodyFont : Option String
deriving DecidableEq

/-- JS truthiness of an optional string field (`undefined` and `""` are
falsy). -/
def optTruthy : Option String → Bool
  | some s => !s.isEmpty
  | none => false

/-- `config?.navigation?.enabled` with optional chaining (`undefined` is
falsy). -/
def navEnabled (d : Data) : Bool :=
  match d.config with
  | some c =>
    match c.navigation with
    | some n => n.enabled
    | none => false
  | none => false

/-! ## renderLinkedText

`String.replace` of JavaScript with a string pattern replaces the first
literal occurrence only; this is embedded as `replaceFirst` below (the
replacement string is inserted literally).  The source's parenthetical-text
special case executes the same replacement in both branches. -/

/-- Replace the first literal occurrence of `pat` in the list by `r`
(JavaScript `String.prototype.replace` with a string pattern; an empty
pattern matches at the front). -/
def replaceFirstL (pat r : List Char) : List Char → List Char
  | [] => if pat.isPrefixOf ([] : List Char) then r else []
  | c :: rest =>
    if pat.isPrefixOf (c :: rest) then r ++ (c :: rest).drop pat.length
    else c :: replaceFirstL pat r rest

/-- `s.replace(pat, r)` on strings. -/
def replaceFirst (s pat r : String) : String :=
  String.mk (replaceFirstL pat.data r.data s.data)

/-- The anchor markup interpolated for one subtitle link. -/
def anchorHtml (l : TLink) : String :=
  "<a href=\"" ++ l.url ++ "\" target=\"_blank\">" ++ l.text ++ "</a>"

/-- `renderLinkedText(text, links)`: fold the links in array order over the
working string, replacing the first occurrence of each `link.text` by its
anchor markup.  The source's `text.includes('(') && text.includes(')')`
branch performs the identical replacement in both arms. -/
def renderLinkedText (text : String) (links : List TLink) : String :=
  links.foldl
    (fun result link =>
      if text.data.contains '(' && text.data.contains ')' then
        replaceFirst result link.text (anchorHtml link)
      else
        replaceFirst result link.text (anchorHtml link))
    text

/-! ## Section renderers

Each renderer receives the (already cleared) container and appends nodes.
They are embedded for schema-conformant payloads: a renderer paired with the
`items` shape its section type declares (§3); `items` of a different shape
than the declared type's is outside the Data Document schema. -/

/-- The `i`+`span` link of the header contact strip (`renderContacts`, first
half): `target="_blank"` exactly for `http`-prefixed urls. -/
def contactHeaderLink (c : Contact) : Node :=
  Node.elem "a"
    (("href", c.url) :: ("class", "contact-link") ::
      (if strStartsWith c.url "http" then [("target", "_blank")] else []))
    [Node.elem "i" [("class", c.icon)] [], Node.elem "span" [] [Node.text c.label]]

/-- One `p` entry of the `#contact-links` block (`renderContacts`, second
half): icon, a space text node, then the labeled link. -/
def contactLinkP (c : Contact) : Node :=
  Node.elem "p" []
    [Node.elem "i" [("class", c.icon)] [],
     Node.text " ",
     Node.elem "a"
       (("href", c.url) :: (if strStartsWith c.url "http" then [("target", "_blank")] else []))
       [Node.text c.label]]

/-- One `p` entry of a `contact`-type section (`renderContactSection`): icon
then labeled link, no separating text node. -/
def contactSectionEntry (c : Contact) : Node :=
  Node.elem "p" []
    [Node.elem "i" [("class", c.icon)] [],
     Node.elem "a"
       (("href", c.url) :: (if strStartsWith c.url "http" then [("target", "_blank")] else []))
       [Node.text c.label]]

/-- One `li` of a timeline detail list: `detail.text` markup, the optional
trailing link parenthetical appended to the markup, then the optional
`Tech Stack` line. -/
def detailNode (dt : Detail) : Node :=
  let base :=
    dt.text ++
      (match dt.link with
       | some l => " (<a href=\"" ++ l.url ++ "\" target=\"_blank\">" ++ l.text ++ "</a>)"
       | none => "")
  let tagPart :=
    match dt.tags with
    | some ts =>
      if ts.length > 0 then
        [Node.elem "br" [] [],
         Node.elem "em" [] [Node.text ("Tech Stack: " ++ String.intercalate ", " ts)]]
      else []
    | none => []
  Node.elem "li" [] (Node.raw base :: tagPart)

/-- One `div.job` of a timeline section. -/
def timelineItemNode (it : TimelineItem) : Node :=
  Node.elem "div" [("class", "job")]
    ([Node.elem "h3" [] [Node.text it.title]]
      ++ (match it.subtitle with
          | some st =>
            let h4kids :=
              match st.links with
              | some ls =>
                if ls.length > 0 then [Node.raw (renderLinkedText st.text ls)]
                else [Node.text st.text]
              | none => [Node.text st.text]
            [Node.elem "h4" [] h4kids]
          | none => [])
      ++ (match it.period with
          | some per => if per.isEmpty then [] else [Node.elem "p" [("class", "date")] [Node.text per]]
          | none => [])
      ++ (match it.details with
          | some ds =>
            if ds.length > 0 then [Node.elem "ul" [] (ds.map detailNode)] else []
          | none => []))

/-- One `p` line of a categories section:
`<strong>Category:</strong> item1, item2, ...`. -/
def catNode (entry : String × List String) : Node :=
  Node.elem "p" []
    [Node.raw ("<strong>" ++ entry.1 ++ ":</strong> " ++ String.intercalate ", " entry.2)]

/-- One `div.project` card. -/
def cardNode (c : Card) : Node :=
  Node.elem "div" [("class", "project")]
    ([Node.elem "h3" [] [Node.text c.title],
      Node.elem "p" [] [Node.text c.content]]
      ++ (match c.tags with
          | some ts =>
            if ts.length > 0 then
              [Node.elem "p" []
                [Node.elem "em" [] [Node.text ("Tech Stack: " ++ String.intercalate ", " ts)]]]
            else []
          | none => []))

/-- `renderTextSection`: append one paragraph carrying `section.content` as
markup.  (A text section carries `content` per the schema; `getD` covers the
out-of-schema absent case.) -/
def renderTextSection (sec : Sec) (container : Node) : Node :=
  appendChild container (Node.elem "p" [] [Node.raw (sec.content.getD "")])

/-- `renderTimelineSection`: no-op without items, else append one `div.job`
per item in order. -/
def renderTimelineSection (sec : Sec) (container : Node) : Node :=
  match sec.items with
  | some (Items.timeline its) =>
    its.foldl (fun c it => appendChild c (timelineItemNode it)) container
  | _ => container

/-- `renderCategoriesSection`: no-op without items, else append one line per
mapping entry, in the mapping's own order. -/
def renderCategoriesSection (sec : Sec) (container : Node) : Node :=
  match sec.items with
  | some (Items.categories entries) =>
    entries.foldl (fun c e => appendChild c (catNode e)) container
  | _ => container

/-- `renderCardsSection`: no-op without items, else append one card per item
in order. -/
def renderCardsSection (sec : Sec) (container : Node) : Node :=
  match sec.items with
  | some (Items.cards cs) =>
    cs.foldl (fun c it => appendChild c (cardNode it)) container
  | _ => container

/-- `renderContactSection`'s resolution of its `items` field: the sentinel
`"contacts"` substitutes the document's top-level list, an inline list is
used directly, and an absent field resolves to nothing. -/
def resolveContacts (d : Data) (sec : Sec) : Option (List Contact) :=
  match sec.items with
  | some Items.contactsRef => d.contacts
  | some (Items.contactList l) => some l
  | _ => none

/-- `renderContactSection`: build the `div.contact-links` wrapper, populate
it from the resolved contact list when that is truthy, and append the
wrapper to the container (the wrapper is appended even when empty). -/
def renderContactSection (d : Data) (sec : Sec) (container : Node) : Node :=
  let entries :=
    match resolveContacts d sec with
    | some l => l.map contactSectionEntry
    | none => []
  appendChild container (Node.elem "div" [("class", "contact-links")] entries)

/-- Is a renderer registered for this section type (`this.renderers`)? -/
def rendererExists (ty : String) : Bool :=
  ty = "text" || ty = "timeline" || ty = "categories" || ty = "cards" || ty = "contact"

/-- Dispatch on `section.type` (`this.renderers[section.type]`); identity
when no renderer is registered. -/
def applyRenderer (d : Data) (sec : Sec) (container : Node) : Node :=
  if sec.type = "text" then renderTextSection sec container
  else if sec.type = "timeline" then renderTimelineSection sec container
  else if sec.type = "categories" then renderCategoriesSection sec container
  else if sec.type = "cards" then renderCardsSection sec container
  else if sec.type = "contact" then renderContactSection d sec container
  else container

/-! ## The section-rendering pass (`renderSections`) -/

/-- The heading kept by the clearing step: the first `h2` descendant of the
container is reused (attributes preserved, text overwritten with the section
title), or a fresh `h2` is created when none exists. -/
def headingFor (sec : Sec) (container : Node) : Node :=
  match findInList (fun n => hasTag n "h2") container.kids with
  | some (Node.elem _ a _) => Node.elem "h2" a [Node.text sec.title]
  | _ => Node.elem "h2" [] [Node.text sec.title]

/-- The per-container body of `renderSections`: clear prior content keeping
the heading, then dispatch to the renderer registered for `section.type`
(identity on the cleared container when none is registered). -/
def sectionTransform (d : Data) (sec : Sec) (container : Node) : Node :=
  applyRenderer d sec (setKids container [headingFor sec container])

/-- One iteration of the `renderSections` loop on the document tree: locate
the mount point `#<section.id>`, then its first `.container` descendant, and
rewrite that container; a missing mount point or container leaves the tree
unchanged. -/
def renderSectionStep (d : Data) (sec : Sec) (root : Node) : Node :=
  docUpdate (fun n => hasId n sec.id)
    (fun se =>
      match updInNode (fun n => hasClass n "container") (sectionTransform d sec) se with
      | some se' => se'
      | none => se)
    root

/-- The diagnostics of one `renderSections` iteration: a warning exactly when
the mount point and container exist but no renderer is registered. -/
def sectionStepDiags (sec : Sec) (root : Node) : List String :=
  match docFind (fun n => hasId n sec.id) root with
  | none => []
  | some se =>
    match findInList (fun n => hasClass n "container") se.kids with
    | none => []
    | some _ =>
      if rendererExists sec.type then []
      else ["No renderer found for section type: " ++ sec.type]

/-- The `renderSections` loop over a section list. -/
def renderSectionsGo (d : Data) : List Sec → Node → Node × List String
  | [], root => (root, [])
  | sec :: rest, root =>
    let root' := renderSectionStep d sec root
    let r := renderSectionsGo d rest root'
    (r.1, sectionStepDiags sec root ++ r.2)

/-- `renderSections()`: no-op without a sections list. -/
def renderSections (d : Data) (doc : Document) : Document × List String :=
  match d.sections with
  | none => (doc, [])
  | some ss =>
    let r := renderSectionsGo d ss doc.root
    ({doc with root := r.1}, r.2)

/-! ## Metadata, header, contacts, navigation, theme -/

/-- `updateMeta()`: override `document.title` when present and truthy;
update the description `meta` tag's content, creating and appending the tag
to `head` only when absent. -/
def updateMeta (d : Data) (doc : Document) : Document :=
  match d.meta with
  | none => doc
  | some m =>
    let doc1 :=
      match m.title with
      | some t => if t.isEmpty then doc else {doc with title := t}
      | none => doc
    match m.description with
    | none => doc1
    | some ds =>
      if ds.isEmpty then doc1
      else
        match docFind isMetaDesc doc1.root with
        | some _ =>
          let r :=
            docUpdate isMetaDesc
              (fun n =>
                match n with
                | Node.elem t a cs => Node.elem t (attrSet a "content" ds) cs
                | other => other)
              doc1.root
          {doc1 with root := r}
        | none =>
          let r :=
            docUpdate (fun n => hasTag n "head")
              (fun h =>
                appendChild h (Node.elem "meta" [("name", "description"), ("content", ds)] []))
              doc1.root
          {doc1 with root := r}

/-- `setElementContent(selector, content, isHTML)`: write the content into
the first matching element, only when the element exists and the content is
truthy. -/
def setElementContent (p : Node → Bool) (content : Option String) (isHTML : Bool)
    (root : Node) : Node :=
  match content with
  | none => root
  | some s =>
    if s.isEmpty then root
    else docUpdate p (if isHTML then setInner s else setText s) root

/-- The `'#about p'` selector: rewrite the first `p` descendant of the first
`#about` element (section ids are unique by the documented invariant, under
which this composition agrees with the CSS descendant selector). -/
def setAboutSummary (content : Option String) (root : Node) : Node :=
  match content with
  | none => root
  | some s =>
    if s.isEmpty then root
    else
      docUpdate (fun n => hasId n "about")
        (fun ab =>
          match updInNode (fun n => hasTag n "p") (setInner s) ab with
          | some ab' => ab'
          | none => ab)
        root

/-- `renderContacts()`: wholesale repopulation of the `#header-contacts`
strip and the `#contact-links` block, each only when the mount point exists
and `data.contacts` is present. -/
def renderContacts (d : Data) (root : Node) : Node :=
  let root1 :=
    if ((docFind (fun n => hasId n "header-contacts") root).isSome && d.contacts.isSome) then
      docUpdate (fun n => hasId n "header-contacts")
        (fun n => setKids n ((d.contacts.getD []).map contactHeaderLink)) root
    else root
  if ((docFind (fun n => hasId n "contact-links") root1).isSome && d.contacts.isSome) then
    docUpdate (fun n => hasId n "contact-links")
      (fun n => setKids n ((d.contacts.getD []).map contactLinkP)) root1
  else root1

/-- `renderHeader()`: populate the name, title and summary mount points from
`personal` (contract: content override, not content clear), then render the
contact strips; a missing `personal` skips everything including
`renderContacts`. -/
def renderHeader (d : Data) (doc : Document) : Document :=
  match d.personal with
  | none => doc
  | some p =>
    let r1 := setElementContent (fun n => hasClass n "name") p.name false doc.root
    let r2 := setElementContent (fun n => hasClass n "title") p.title false r1
    let r3 := setAboutSummary p.summary r2
    {doc with root := renderContacts d r3}

/-- One generated navigation entry: `li > a.nav-link` with href `#<id>` and
the section title as label. -/
def navEntry (sec : Sec) : Node :=
  Node.elem "li" []
    [Node.elem "a" [("href", "#" ++ sec.id), ("class", "nav-link")] [Node.text sec.title]]

/-- `generateNavigation()`: untouched unless `config.navigation.enabled` is
truthy and a sections list exists; otherwise replace the `.nav-menu`
contents wholesale with one entry per section in order. -/
def generateNavigation (d : Data) (doc : Document) : Document :=
  if navEnabled d && d.sections.isSome then
    match d.sections with
    | some ss =>
      let r :=
        docUpdate (fun n => hasClass n "nav-menu")
          (fun nm => setKids nm (ss.map navEntry)) doc.root
      {doc with root := r}
    | none => doc
  else doc

/-- `applyTheme()`: apply exactly the theme fields that are present, each to
its global style variable or the body font. -/
def applyTheme (d : Data) (doc : Document) : Document :=
  match d.theme with
  | none => doc
  | some th =>
    let doc1 :=
      match th.colors with
      | some c =>
        let d1 :=
          match c.primary with
          | some v => {doc with styleVars := attrSet doc.styleVars "--accent-color" v}
          | none => doc
        match c.primaryDark with
        | some v => {d1 with styleVars := attrSet d1.styleVars "--dark-accent-color" v}
        | none => d1
      | none => doc
    let doc2 :=
      match th.fonts with
      | some f =>
        match f.primary with
        | some v => {doc1 with bodyFont := some v}
        | none => doc1
      | none => doc1
    match th.layout with
    | some l =>
      match l.containerWidth with
      | some v => {doc2 with styleVars := attrSet doc2.styleVars "--container-width" v}
      | none => doc2
    | none => doc2

/-! ## Orchestration (`renderPortfolio`, `loadData`, `init`)

`initializeNavigation` only registers event listeners (and performs
layout-dependent highlighting outside the content model); it is the identity
on document content here. -/

/-- One full render pass on a loaded Data Document, in source order:
metadata, header (with contact strips), sections, navigation. -/
def renderPass (d : Data) (doc : Document) : Document × List String :=
  let doc1 := updateMeta d doc
  let doc2 := renderHeader d doc1
  let r := renderSections d doc2
  (generateNavigation d r.1, r.2)

/-- `renderPortfolio()`: no-op when no document was loaded. -/
def renderPortfolio (data : Option Data) (doc : Document) : Document × List String :=
  match data with
  | none => (doc, [])
  | some d => renderPass d doc

/-- The transport outcome of fetching `data.json`: a success response whose
body parses to a Data Document or is malformed, a non-success HTTP status,
or a network failure. -/
inductive FetchResult where
  | ok (parsed : Option Data)
  | httpError (status : Nat)
  | networkError (msg : String)

/-- `loadData()`: propagate the parsed document, or fail (after a warning,
which `init` folds into its diagnostics) on a non-success status or a
malformed body. -/
def loadData : FetchResult → Except String Data
  | .ok (some d) => Except.ok d
  | .ok none => Except.error "malformed body"
  | .httpError s => Except.error ("HTTP error! status: " ++ toString s)
  | .networkError m => Except.error m

/-- Did the load fail? -/
def loadFails (fr : FetchResult) : Bool :=
  match loadData fr with
  | .ok _ => false
  | .error _ => true

/-- `init()`: load, then render, apply the theme and regenerate navigation;
a load failure is caught, surfaced as diagnostics, and leaves the document
untouched. -/
def initPortfolio (fr : FetchResult) (doc : Document) : Document × List String :=
  match loadData fr with
  | .error e =>
    (doc, ["Could not load data.json: " ++ e, "Failed to initialize portfolio: " ++ e])
  | .ok d =>
    let r := renderPass d doc
    (generateNavigation d (applyTheme d r.1), r.2)

/-! ## Theme manager (`ThemeManager` of `script.js`)

State: the persistent storage key `theme`, the `data-theme` attribute of the
document root, and the manager's in-memory current theme.  The system
preference is an input parameter. -/

/-- The theme manager's observable state. -/
structure TM where
  storage : Option String
  dataTheme : Option String
  current : String
deriving DecidableEq

/-- `getDefaultTheme()`: a stored preference wins when truthy, else the
system preference, else `"light"`. -/
def getDefaultTheme (stored : Option String) (sysDark : Bool) : String :=
  match stored with
  | some s => if s.isEmpty then (if sysDark then "dark" else "light") else s
  | none => if sysDark then "dark" else "light"

/-- `setTheme(theme, savePreference)`: set the `data-theme` attribute, write
the preference only when asked to, and track the current theme. -/
def setTheme (s : TM) (theme : String) (save : Bool) : TM :=
  let s1 : TM := {s with dataTheme := some theme}
  let s2 : TM := if save then {s1 with storage := some theme} else s1
  {s2 with current := theme}

/-- `ThemeManager` construction and `init()`: derive the default theme, then
apply it, persisting only when a stored preference already existed
(`localStorage.getItem('theme') !== null`). -/
def tmInit (stored : Option String) (sysDark : Bool) : TM :=
  let current := getDefaultTheme stored sysDark
  setTheme {storage := stored, dataTheme := none, current := current} current stored.isSome

/-- `toggleTheme()`: flip between light and dark and persist the result. -/
def toggleTheme (s : TM) : TM :=
  setTheme s (if s.current = "light" then "dark" else "light") true

/-! # Claims -/

/-- C9.  For a persisted theme value (`"light"` or `"dark"`, the value space
of the theme preference), toggling twice after startup returns both the
current theme and the persisted value to the original; and when nothing was
persisted, initialization (whether the system preference or the fallback
decided the initial theme) writes nothing to storage. -/
theorem theme_toggle_roundtrip_and_no_initial_persist
    (v : String) (sysDark : Bool) (hv : v = "light" ∨ v = "dark") :
    (toggleTheme (toggleTheme (tmInit (some v) sysDark))).current = v ∧
    (toggleTheme (toggleTheme (tmInit (some v) sysDark))).storage = some v ∧
    (tmInit none sysDark).storage = none := by
  rcases hv with h | h <;> subst h <;>
    cases sysDark <;>
      refine ⟨rfl, rfl, ?_⟩ <;> rfl

/-- Witness for C9 at `v = "dark"`, `sysDark = false`. -/
theorem theme_toggle_roundtrip_witness :
    (toggleTheme (toggleTheme (tmInit (some "dark") false))).current = "dark" ∧
    (toggleTheme (toggleTheme (tmInit (some "dark") false))).storage = some "dark" ∧
    (tmInit none false).storage = none :=
  theme_toggle_roundtrip_and_no_initial_persist "dark" false (Or.inr rfl)

/-- A concrete skeleton document used by witnesses. -/
def exDoc : Document :=
  { title := "Static",
    root :=
      Node.elem "html" []
        [Node.elem "head" [] [],
         Node.elem "body" []
           [Node.elem "section" [("id", "experience")]
              [Node.elem "div" [("class", "container")]
                 [Node.elem "h2" [] [Node.text "Experience"],
                  Node.elem "p" [] [Node.text "static fallback"]]]]],
    styleVars := [],
    bodyFont := none }

/-- C1.  A failed load of the Data Document (non-success status or malformed
body) is swallowed by `init` after emitting diagnostics, and the document is
left entirely unchanged; moreover `renderPortfolio` is a no-op whenever no
document was loaded. -/
theorem init_swallows_load_failure (fr : FetchResult) (doc : Document)
    (h : loadFails fr = true) :
    (initPortfolio fr doc).1 = doc ∧ (initPortfolio fr doc).2 ≠ [] ∧
    renderPortfolio none doc = (doc, []) := by
  unfold loadFails at h
  unfold initPortfolio
  cases hld : loadData fr with
  | ok d => rw [hld] at h; simp at h
  | error e => exact ⟨rfl, by simp, rfl⟩

/-- Witness for C1: an HTTP 404 load against the example skeleton. -/
theorem init_swallows_load_failure_witness :
    (initPortfolio (FetchResult.httpError 404) exDoc).1 = exDoc ∧
    (initPortfolio (FetchResult.httpError 404) exDoc).2 ≠ [] ∧
    renderPortfolio none exDoc = (exDoc, []) :=
  init_swallows_load_failure (FetchResult.httpError 404) exDoc rfl

/-- A successful literal prefix match replaces the matched prefix. -/
theorem replaceFirstL_firstOcc (pat r s : List Char) (h : pat.isPrefixOf s) :
    replaceFirstL pat r s = r ++ s.drop pat.length := by
  cases s with
  | nil =>
    have hp : pat = [] := by
      cases pat with
      | nil => rfl
      | cons c cs => simp [List.isPrefixOf] at h
    subst hp
    simp [replaceFirstL]
  | cons c rest => simp [replaceFirstL, h]

/-- C6.  `renderLinkedText` folds the links in array order over the working
string (its parenthetical-text branch performs the identical replacement),
and one replacement step rewrites exactly the first literal occurrence of
the pattern: when no occurrence starts inside `a`, the occurrence between
`a` and `b` is replaced and everything else — in particular any further
occurrence inside `b` — is left unmodified. -/
theorem renderLinkedText_first_occurrence :
    (∀ (text : String) (links : List TLink),
      renderLinkedText text links =
        links.foldl (fun r l => replaceFirst r l.text (anchorHtml l)) text) ∧
    (∀ (a b pat r : List Char),
      (∀ i, i < a.length → ¬ pat.isPrefixOf (a.drop i ++ pat ++ b)) →
      replaceFirstL pat r (a ++ pat ++ b) = a ++ r ++ b) := by
  constructor
  · intro text links
    unfold renderLinkedText
    congr 1
    funext r l
    exact ite_self _
  · intro a
    induction a with
    | nil =>
      intro b pat r _
      have hpre : pat.isPrefixOf (pat ++ b) := by
        simp [List.isPrefixOf_iff_prefix]
      simp [replaceFirstL_firstOcc pat r (pat ++ b) hpre, List.drop_left]
    | cons c a' ih =>
      intro b pat r h
      have h0 : ¬ pat <+: (c :: (a' ++ (pat ++ b))) := by
        have := h 0 (by simp)
        simpa [List.isPrefixOf_iff_prefix, List.append_assoc] using this
      have step :
          replaceFirstL pat r ((c :: a') ++ pat ++ b) =
            c :: replaceFirstL pat r (a' ++ pat ++ b) := by
        show replaceFirstL pat r (c :: (a' ++ pat ++ b)) = _
        simp [replaceFirstL, List.isPrefixOf_iff_prefix, h0]
      rw [step, ih b pat r (fun i hi => by simpa using h (i + 1) (by simpa using hi))]
      rfl

/-- Witness for C6: replacing `b` between `a` and `cb` touches only the
first occurrence. -/
theorem renderLinkedText_first_occurrence_witness :
    replaceFirstL (['b'] : List Char) ['X', 'Y'] (['a'] ++ ['b'] ++ ['c', 'b']) =
      ['a'] ++ ['X', 'Y'] ++ ['c', 'b'] :=
  renderLinkedText_first_occurrence.2 ['a'] ['c', 'b'] ['b'] ['X', 'Y'] (by decide)

/-- A `forEach`/`appendChild` loop appends the mapped nodes in order. -/
theorem foldl_appendChild {α : Type} (g : α → Node) (l : List α)
    (t : String) (a : List (String × String)) (cs : List Node) :
    l.foldl (fun c x => appendChild c (g x)) (Node.elem t a cs) =
      Node.elem t a (cs ++ l.map g) := by
  induction l generalizing cs with
  | nil => simp
  | cons x xs ih =>
    have hstep : appendChild (Node.elem t a cs) (g x) = Node.elem t a (cs ++ [g x]) := rfl
    rw [List.foldl_cons, hstep, ih]
    simp

mutual

/-- All anchor (`a`) elements of a node's subtree, itself included, in
pre-order. -/
def anchorsInNode : Node → List Node
  | .elem t a cs => (if t = "a" then [Node.elem t a cs] else []) ++ anchorsInList cs
  | _ => []

/-- All anchor elements of a forest. -/
def anchorsInList : List Node → List Node
  | [] => []
  | n :: rest => anchorsInNode n ++ anchorsInList rest

end

/-- C4.  `renderContactSection` resolves the sentinel `"contacts"` to the
document's top-level contact list and any other items value to itself; each
resolved contact yields exactly one entry, whose single link carries
`target="_blank"` exactly when the contact url is `http`-prefixed. -/
theorem contact_section_resolution_and_targets :
    (∀ (d : Data) (sec : Sec) (t : String) (a : List (String × String)) (cs : List Node),
      sec.items = some Items.contactsRef →
      renderContactSection d sec (Node.elem t a cs) =
        Node.elem t a (cs ++
          [Node.elem "div" [("class", "contact-links")]
            ((d.contacts.getD []).map contactSectionEntry)])) ∧
    (∀ (d : Data) (sec : Sec) (l : List Contact)
       (t : String) (a : List (String × String)) (cs : List Node),
      sec.items = some (Items.contactList l) →
      renderContactSection d sec (Node.elem t a cs) =
        Node.elem t a (cs ++
          [Node.elem "div" [("class", "contact-links")] (l.map contactSectionEntry)])) ∧
    (∀ c : Contact,
      (anchorsInNode (contactSectionEntry c)).map (fun n => (n.attr "href", n.attr "target")) =
        [(some c.url, if strStartsWith c.url "http" then some "_blank" else none)]) := by
  refine ⟨?_, ?_, ?_⟩
  · intro d sec t a cs hit
    cases hc : d.contacts with
    | none => simp [renderContactSection, resolveContacts, hit, hc, appendChild]
    | some l => simp [renderContactSection, resolveContacts, hit, hc, appendChild]
  · intro d sec l t a cs hit
    simp [renderContactSection, resolveContacts, hit, appendChild]
  · intro c
    by_cases h : strStartsWith c.url "http" <;>
      simp [contactSectionEntry, anchorsInNode, anchorsInList, h, Node.attr, attrGet]

/-- The single mail contact of the spec's contact-section example. -/
def mailContact : Contact := { label := "Mail", url := "mailto:a@b.com", icon := "fa-envelope" }

/-- A Data Document holding only the mail contact. -/
def mailData : Data :=
  { meta := none, personal := none, contacts := some [mailContact],
    theme := none, config := none, sections := none }

/-- The `contact`-type section with `items: "contacts"` of the example. -/
def mailSection : Sec :=
  { id := "contact", title := "Contact", type := "contact",
    items := some Items.contactsRef, content := none }

/-- Witness for C4: the spec's single-mail-contact example yields exactly one
link, reusing the top-level entry and without `target="_blank"`. -/
theorem contact_section_resolution_witness :
    renderContactSection mailData mailSection (Node.elem "div" [("class", "container")] []) =
      Node.elem "div" [("class", "container")]
        ([] ++ [Node.elem "div" [("class", "contact-links")]
          (([mailContact].map contactSectionEntry))]) ∧
    (anchorsInNode (contactSectionEntry mailContact)).map
        (fun n => (n.attr "href", n.attr "target")) =
      [(some "mailto:a@b.com", none)] := by
  constructor
  · exact contact_section_resolution_and_targets.1 mailData mailSection
      "div" [("class", "container")] [] rfl
  · have h := contact_section_resolution_and_targets.2.2 mailContact
    have hs : strStartsWith mailContact.url "http" = false := by decide
    rw [hs] at h
    simpa [mailContact] using h

/-- C8.  The categories renderer appends one line per mapping entry, in the
mapping's own order, of the form bold category name, colon, then the items
joined by `", "`; category order and within-category item order are
preserved (the i-th appended line renders the i-th entry). -/
theorem categories_order_preserved (sec : Sec) (entries : List (String × List String))
    (t : String) (a : List (String × String)) (cs : List Node)
    (hit : sec.items = some (Items.categories entries)) :
    renderCategoriesSection sec (Node.elem t a cs) =
      Node.elem t a (cs ++ entries.map catNode) ∧
    ∀ i (h : i < entries.length),
      (entries.map catNode).get ⟨i, by simpa using h⟩ =
        Node.elem "p" []
          [Node.raw ("<strong>" ++ (entries.get ⟨i, h⟩).1 ++ ":</strong> " ++
            String.intercalate ", " (entries.get ⟨i, h⟩).2)] := by
  constructor
  · simp only [renderCategoriesSection, hit]
    exact foldl_appendChild catNode entries t a cs
  · intro i h
    simp [catNode]

/-- Witness for C8: two categories with two and one items respectively. -/
theorem categories_order_preserved_witness :
    renderCategoriesSection
        { id := "skills", title := "Skills", type := "categories",
          items := some (Items.categories [("Langs", ["Go", "SQL"]), ("Tools", ["Git"])]),
          content := none }
        (Node.elem "div" [("class", "container")] [Node.elem "h2" [] [Node.text "Skills"]]) =
      Node.elem "div" [("class", "container")]
        ([Node.elem "h2" [] [Node.text "Skills"]] ++
          [("Langs", ["Go", "SQL"]), ("Tools", ["Git"])].map catNode) ∧
    ([("Langs", ["Go", "SQL"]), ("Tools", ["Git"])].map catNode).get ⟨0, by simp⟩ =
      Node.elem "p" []
        [Node.raw ("<strong>" ++ "Langs" ++ ":</strong> " ++
          String.intercalate ", " ["Go", "SQL"])] := by
  have h := categories_order_preserved
    { id := "skills", title := "Skills", type := "categories",
      items := some (Items.categories [("Langs", ["Go", "SQL"]), ("Tools", ["Git"])]),
      content := none }
    [("Langs", ["Go", "SQL"]), ("Tools", ["Git"])]
    "div" [("class", "container")] [Node.elem "h2" [] [Node.text "Skills"]] rfl
  exact ⟨h.1, h.2 0 (by simp)⟩

/-! ## Search/update correspondence lemmas -/

mutual

/-- No match in a node means its update is a no-op. -/
theorem findInNode_none_upd (p : Node → Bool) (f : Node → Node) :
    ∀ n : Node, findInNode p n = none → updInNode p f n = none
  | Node.elem t a cs, h => by
    simp only [findInNode] at h
    simp only [updInNode, findInList_none_upd p f cs h]
  | Node.text _, _ => rfl
  | Node.raw _, _ => rfl

/-- No match in a forest means its update is a no-op. -/
theorem findInList_none_upd (p : Node → Bool) (f : Node → Node) :
    ∀ l : List Node, findInList p l = none → updInList p f l = none
  | [], _ => rfl
  | n :: rest, h => by
    simp only [findInList] at h
    simp only [updInList]
    by_cases hp : p n
    · rw [if_pos hp] at h; exact absurd h (by simp)
    · rw [if_neg hp] at h
      rw [if_neg hp]
      cases hfn : findInNode p n with
      | some m => rw [hfn] at h; exact absurd h (by simp)
      | none =>
        rw [hfn] at h
        rw [findInNode_none_upd p f n hfn, findInList_none_upd p f rest h]

end

mutual

/-- A match in a node means its update succeeds. -/
theorem findInNode_some_upd (p : Node → Bool) (f : Node → Node) :
    ∀ (n : Node) (m : Node), findInNode p n = some m →
      ∃ n', updInNode p f n = some n'
  | Node.elem t a cs, m, h => by
    simp only [findInNode] at h
    obtain ⟨cs', hcs⟩ := findInList_some_upd p f cs m h
    exact ⟨Node.elem t a cs', by simp only [updInNode, hcs]⟩

/-- A match in a forest means its update succeeds. -/
theorem findInList_some_upd (p : Node → Bool) (f : Node → Node) :
    ∀ (l : List Node) (m : Node), findInList p l = some m →
      ∃ l', updInList p f l = some l'
  | n :: rest, m, h => by
    simp only [findInList] at h
    simp only [updInList]
    by_cases hp : p n
    · exact ⟨f n :: rest, by rw [if_pos hp]⟩
    · rw [if_neg hp] at h
      rw [if_neg hp]
      cases hfn : findInNode p n with
      | some m' =>
        obtain ⟨n', hn'⟩ := findInNode_some_upd p f n m' hfn
        exact ⟨n' :: rest, by rw [hn']⟩
      | none =>
        rw [hfn] at h
        obtain ⟨rest', hrest⟩ := findInList_some_upd p f rest m h
        rw [findInNode_none_upd p f n hfn, hrest]
        exact ⟨n :: rest', rfl⟩

end

mutual

/-- Updating the found match by a function fixing it is a no-op. -/
theorem updInNode_fix (p : Node → Bool) (f : Node → Node) :
    ∀ (n : Node) (m : Node), findInNode p n = some m → f m = m →
      updInNode p f n = some n
  | Node.elem t a cs, m, h, hf => by
    simp only [findInNode] at h
    simp only [updInNode, updInList_fix p f cs m h hf]

/-- Updating the found match by a function fixing it is a no-op. -/
theorem updInList_fix (p : Node → Bool) (f : Node → Node) :
    ∀ (l : List Node) (m : Node), findInList p l = some m → f m = m →
      updInList p f l = some l
  | n :: rest, m, h, hf => by
    simp only [findInList] at h
    simp only [updInList]
    by_cases hp : p n
    · rw [if_pos hp] at h
      rw [if_pos hp]
      cases h
      rw [hf]
    · rw [if_neg hp] at h
      rw [if_neg hp]
      cases hfn : findInNode p n with
      | some m' =>
        rw [hfn] at h
        cases h
        rw [updInNode_fix p f n m hfn hf]
      | none =>
        rw [hfn] at h
        rw [findInNode_none_upd p f n hfn, updInList_fix p f rest m h hf]

end

/-- The nodes a registered renderer appends after the heading, as a function
of the Data Document and the section alone (empty for an unregistered
type). -/
def rendererTail (d : Data) (sec : Sec) : List Node :=
  if sec.type = "text" then [Node.elem "p" [] [Node.raw (sec.content.getD "")]]
  else if sec.type = "timeline" then
    match sec.items with
    | some (Items.timeline its) => its.map timelineItemNode
    | _ => []
  else if sec.type = "categories" then
    match sec.items with
    | some (Items.categories entries) => entries.map catNode
    | _ => []
  else if sec.type = "cards" then
    match sec.items with
    | some (Items.cards cards) => cards.map cardNode
    | _ => []
  else if sec.type = "contact" then
    [Node.elem "div" [("class", "contact-links")]
      (match resolveContacts d sec with
       | some l => l.map contactSectionEntry
       | none => [])]
  else []

/-- Every registered renderer appends exactly its tail to the container's
children; an unregistered type appends nothing. -/
theorem applyRenderer_kids (d : Data) (sec : Sec) (t : String)
    (a : List (String × String)) (cs : List Node) :
    applyRenderer d sec (Node.elem t a cs) = Node.elem t a (cs ++ rendererTail d sec) := by
  unfold applyRenderer rendererTail
  by_cases h1 : sec.type = "text"
  · simp [h1, renderTextSection, appendChild]
  · by_cases h2 : sec.type = "timeline"
    · cases hit : sec.items with
      | none => simp [h1, h2, renderTimelineSection, hit]
      | some it =>
        cases it <;> simp [h1, h2, renderTimelineSection, hit, foldl_appendChild]
    · by_cases h3 : sec.type = "categories"
      · cases hit : sec.items with
        | none => simp [h1, h2, h3, renderCategoriesSection, hit]
        | some it =>
          cases it <;> simp [h1, h2, h3, renderCategoriesSection, hit, foldl_appendChild]
      · by_cases h4 : sec.type = "cards"
        · cases hit : sec.items with
          | none => simp [h1, h2, h3, h4, renderCardsSection, hit]
          | some it =>
            cases it <;> simp [h1, h2, h3, h4, renderCardsSection, hit, foldl_appendChild]
        · by_cases h5 : sec.type = "contact"
          · simp [h1, h2, h3, h4, h5, renderContactSection, appendChild]
          · simp [h1, h2, h3, h4, h5]

/-- The per-container body of the section pass yields the (reused or fresh)
heading followed by the renderer's tail. -/
theorem sectionTransform_elem (d : Data) (sec : Sec) (t : String)
    (a : List (String × String)) (cs : List Node) :
    sectionTransform d sec (Node.elem t a cs) =
      Node.elem t a (headingFor sec (Node.elem t a cs) :: rendererTail d sec) := by
  unfold sectionTransform
  have hset : setKids (Node.elem t a cs) [headingFor sec (Node.elem t a cs)] =
      Node.elem t a [headingFor sec (Node.elem t a cs)] := rfl
  rw [hset, applyRenderer_kids]
  rfl

/-- C5.  When the section pass processes a container, the result starts with
a heading followed only by renderer output: an existing `h2` descendant is
reused — its attributes kept, its text overwritten with the section title —
and otherwise a fresh attribute-free `h2` is created; in both cases the
heading is the container's first child, and everything previously in the
container is gone (the rest depends only on the document and section). -/
theorem heading_preserved_on_clear (d : Data) (sec : Sec) (t : String)
    (a : List (String × String)) (cs : List Node) :
    (sectionTransform d sec (Node.elem t a cs)).kids =
      (match findInList (fun n => hasTag n "h2") cs with
       | some (Node.elem _ ha _) => Node.elem "h2" ha [Node.text sec.title]
       | _ => Node.elem "h2" [] [Node.text sec.title]) :: rendererTail d sec := by
  rw [sectionTransform_elem]
  simp only [Node.kids, headingFor]

/-- A no-match document search makes the guarded update a no-op. -/
theorem docUpdate_of_find_none (p : Node → Bool) (f : Node → Node) (root : Node)
    (h : docFind p root = none) : docUpdate p f root = root := by
  unfold docFind at h
  unfold docUpdate
  rw [findInNode_none_upd p f root h]

/-- A document update whose function fixes the found match is a no-op. -/
theorem docUpdate_fix (p : Node → Bool) (f : Node → Node) (root m : Node)
    (h : docFind p root = some m) (hf : f m = m) : docUpdate p f root = root := by
  unfold docFind at h
  unfold docUpdate
  rw [updInNode_fix p f root m h hf]

/-- The inner container update of `renderSectionStep` fixes a mount point
that has no `.container` descendant. -/
theorem container_missing_fix (d : Data) (sec : Sec) (se : Node)
    (hc : findInList (fun n => hasClass n "container") se.kids = none) :
    (match updInNode (fun n => hasClass n "container") (sectionTransform d sec) se with
     | some se' => se'
     | none => se) = se := by
  cases se with
  | elem t a cs =>
    simp only [Node.kids] at hc
    rw [findInNode_none_upd (fun n => hasClass n "container") (sectionTransform d sec)
      (Node.elem t a cs) (by simpa [findInNode] using hc)]
  | text s => rfl
  | raw s => rfl

/-- C10.  A section whose id matches a mount point that has no `.container`
descendant is still silently skipped: no DOM change and no diagnostic. -/
theorem mount_without_container_skipped (d : Data) (sec : Sec) (root se : Node)
    (hm : docFind (fun n => hasId n sec.id) root = some se)
    (hc : findInList (fun n => hasClass n "container") se.kids = none) :
    renderSectionStep d sec root = root ∧ sectionStepDiags sec root = [] := by
  constructor
  · unfold renderSectionStep
    exact docUpdate_fix _ _ root se hm (container_missing_fix d sec se hc)
  · unfold sectionStepDiags
    rw [hm]
    simp [hc]

/-- Witness for C10: a mount point whose only child is a bare paragraph. -/
theorem mount_without_container_skipped_witness :
    renderSectionStep
        { meta := none, personal := none, contacts := none,
          theme := none, config := none, sections := none }
        { id := "x", title := "T", type := "text", items := none, content := none }
        (Node.elem "html" [] [Node.elem "section" [("id", "x")] [Node.elem "p" [] []]]) =
      Node.elem "html" [] [Node.elem "section" [("id", "x")] [Node.elem "p" [] []]] ∧
    sectionStepDiags
        { id := "x", title := "T", type := "text", items := none, content := none }
        (Node.elem "html" [] [Node.elem "section" [("id", "x")] [Node.elem "p" [] []]]) = [] :=
  mount_without_container_skipped _ _ _
    (Node.elem "section" [("id", "x")] [Node.elem "p" [] []]) (by decide) (by decide)

/-- The empty Data Document. -/
def dEmpty : Data :=
  { meta := none, personal := none, contacts := none,
    theme := none, config := none, sections := none }

/-- A section with an unregistered type. -/
def cSec : Sec := { id := "x", title := "T", type := "bogus", items := none, content := none }

/-- A page holding a mount point for `cSec` whose container has prior
content and no heading. -/
def cDoc : Node :=
  Node.elem "html" []
    [Node.elem "section" [("id", "x")]
      [Node.elem "div" [("class", "container")] [Node.elem "p" [] [Node.text "old"]]]]

/-- Counterexample to C2 as stated: for a section of unregistered type whose
mount point and container exist, the section pass is *not* free of DOM
mutation — the container is cleared and a heading is installed before the
renderer lookup fails. -/
theorem unknown_type_mutates_dom :
    rendererExists cSec.type = false ∧
    renderSectionStep dEmpty cSec cDoc ≠ cDoc ∧
    (renderSectionsGo dEmpty [cSec] cDoc).1 ≠ cDoc := by decide

/-- C2 (amended).  A section whose id matches no DOM element is skipped with
no DOM mutation and no diagnostic; an unregistered type (with mount point
and container present) emits a diagnostic and appends no type-specific
content, but still clears the container and rewrites the heading; in every
case the loop continues with the remaining sections (no failure is
raised — the step is a total function). -/
theorem section_skip_amended (d : Data) (sec : Sec) (root se c' : Node)
    (t : String) (a : List (String × String)) (cs : List Node) :
    (docFind (fun n => hasId n sec.id) root = none →
      renderSectionStep d sec root = root ∧ sectionStepDiags sec root = []) ∧
    (rendererExists sec.type = false →
      sectionTransform d sec (Node.elem t a cs) =
        Node.elem t a [headingFor sec (Node.elem t a cs)] ∧
      (docFind (fun n => hasId n sec.id) root = some se →
       findInList (fun n => hasClass n "container") se.kids = some c' →
       sectionStepDiags sec root = ["No renderer found for section type: " ++ sec.type])) ∧
    (∀ rest : List Sec,
      (renderSectionsGo d (sec :: rest) root).1 =
        (renderSectionsGo d rest (renderSectionStep d sec root)).1) := by
  refine ⟨?_, ?_, ?_⟩
  · intro h
    constructor
    · unfold renderSectionStep
      exact docUpdate_of_find_none _ _ root h
    · unfold sectionStepDiags
      rw [h]
  · intro h
    have hall : (((¬sec.type = "text" ∧ ¬sec.type = "timeline") ∧ ¬sec.type = "categories") ∧
        ¬sec.type = "cards") ∧ ¬sec.type = "contact" := by
      simpa [rendererExists] using h
    obtain ⟨⟨⟨⟨h1, h2⟩, h3⟩, h4⟩, h5⟩ := hall
    have htail : rendererTail d sec = [] := by
      simp [rendererTail, h1, h2, h3, h4, h5]
    constructor
    · rw [sectionTransform_elem, htail]
    · intro hm hc
      unfold sectionStepDiags
      rw [hm]
      simp [hc, h]
  · intro rest
    rfl

/-- Witness for the amended C2: the missing-mount case on an empty page, and
the unregistered-type case on `cDoc`. -/
theorem section_skip_amended_witness :
    (renderSectionStep dEmpty cSec (Node.elem "html" [] []) = Node.elem "html" [] [] ∧
     sectionStepDiags cSec (Node.elem "html" [] []) = []) ∧
    (sectionTransform dEmpty cSec
        (Node.elem "div" [("class", "container")] [Node.elem "p" [] [Node.text "old"]]) =
      Node.elem "div" [("class", "container")]
        [headingFor cSec
          (Node.elem "div" [("class", "container")] [Node.elem "p" [] [Node.text "old"]])] ∧
     sectionStepDiags cSec cDoc = ["No renderer found for section type: " ++ cSec.type]) := by
  have ha := (section_skip_amended dEmpty cSec (Node.elem "html" [] [])
    (Node.elem "section" [("id", "x")]
      [Node.elem "div" [("class", "container")] [Node.elem "p" [] [Node.text "old"]]])
    (Node.elem "div" [("class", "container")] [Node.elem "p" [] [Node.text "old"]])
    "div" [("class", "container")] [Node.elem "p" [] [Node.text "old"]]).1 (by decide)
  have hb := (section_skip_amended dEmpty cSec cDoc
    (Node.elem "section" [("id", "x")]
      [Node.elem "div" [("class", "container")] [Node.elem "p" [] [Node.text "old"]]])
    (Node.elem "div" [("class", "container")] [Node.elem "p" [] [Node.text "old"]])
    "div" [("class", "container")] [Node.elem "p" [] [Node.text "old"]]).2.1 (by decide)
  exact ⟨ha, hb.1, hb.2 (by decide) (by decide)⟩

/-- A predicate that inspects only the tag and attributes of an element
(every selector of the source is of this kind). -/
def attrDriven (p : Node → Bool) : Prop :=
  ∀ (t : String) (a : List (String × String)) (cs cs' : List Node),
    p (Node.elem t a cs) = p (Node.elem t a cs')

mutual

/-- Updating the first match keeps it the first match when the rewritten
node still satisfies the predicate (node level). -/
theorem findInNode_upd (p : Node → Bool) (f : Node → Node) (hp : attrDriven p) :
    ∀ (n m : Node), findInNode p n = some m → p (f m) = true →
      ∃ t a cs cs', n = Node.elem t a cs ∧
        updInNode p f n = some (Node.elem t a cs') ∧
        findInNode p (Node.elem t a cs') = some (f m)
  | Node.elem t a cs, m, h, hfm => by
    simp only [findInNode] at h
    obtain ⟨cs', hcs, hfind⟩ := findInList_upd p f hp cs m h hfm
    exact ⟨t, a, cs, cs', rfl, by simp only [updInNode, hcs], by simpa [findInNode] using hfind⟩
  | Node.text s, m, h, _ => by simp [findInNode] at h
  | Node.raw s, m, h, _ => by simp [findInNode] at h

/-- Updating the first match keeps it the first match when the rewritten
node still satisfies the predicate (forest level). -/
theorem findInList_upd (p : Node → Bool) (f : Node → Node) (hp : attrDriven p) :
    ∀ (l : List Node) (m : Node), findInList p l = some m → p (f m) = true →
      ∃ l', updInList p f l = some l' ∧ findInList p l' = some (f m)
  | n :: rest, m, h, hfm => by
    simp only [findInList] at h
    by_cases hpn : p n
    · rw [if_pos hpn] at h
      cases h
      refine ⟨f n :: rest, ?_, ?_⟩
      · simp only [updInList, if_pos hpn]
      · simp only [findInList, hfm, if_pos]
    · rw [if_neg hpn] at h
      cases hfn : findInNode p n with
      | some m' =>
        rw [hfn] at h
        cases h
        obtain ⟨t, a, cs, cs', hn, hn', hfind⟩ := findInNode_upd p f hp n m hfn hfm
        refine ⟨Node.elem t a cs' :: rest, ?_, ?_⟩
        · simp only [updInList, if_neg hpn, hn']
        · have hpn' : ¬ p (Node.elem t a cs') = true := by
            rw [hp t a cs' cs, ← hn]
            exact hpn
          simp only [findInList, if_neg hpn', hfind]
      | none =>
        rw [hfn] at h
        obtain ⟨rest', hrest, hfind⟩ := findInList_upd p f hp rest m h hfm
        refine ⟨n :: rest', ?_, ?_⟩
        · simp only [updInList, if_neg hpn, findInNode_none_upd p f n hfn, hrest]
        · simp only [findInList, if_neg hpn, hfn, hfind]

end

/-- Document-level: after a guarded update, the selector finds the rewritten
node. -/
theorem docFind_after_update (p : Node → Bool) (f : Node → Node) (root m : Node)
    (hp : attrDriven p) (h : docFind p root = some m) (hfm : p (f m) = true) :
    docFind p (docUpdate p f root) = some (f m) := by
  unfold docFind at h ⊢
  obtain ⟨t, a, cs, cs', hroot, hupd, hfind⟩ := findInNode_upd p f hp root m h hfm
  unfold docUpdate
  rw [hupd]
  exact hfind

/-- `setKids` never changes selector matching. -/
theorem hasClass_setKids (nm : Node) (l : List Node) (c : String) :
    hasClass (setKids nm l) c = hasClass nm c := by
  cases nm <;> rfl

mutual

/-- The node returned by a search satisfies the predicate (node level). -/
theorem findInNode_found_sat (p : Node → Bool) :
    ∀ (n m : Node), findInNode p n = some m → p m = true
  | Node.elem t a cs, m, h => by
    simp only [findInNode] at h
    exact findInList_found_sat p cs m h
  | Node.text s, m, h => by simp [findInNode] at h
  | Node.raw s, m, h => by simp [findInNode] at h

/-- The node returned by a search satisfies the predicate (forest level). -/
theorem findInList_found_sat (p : Node → Bool) :
    ∀ (l : List Node) (m : Node), findInList p l = some m → p m = true
  | n :: rest, m, h => by
    simp only [findInList] at h
    by_cases hpn : p n
    · rw [if_pos hpn] at h
      cases h
      exact hpn
    · rw [if_neg hpn] at h
      cases hfn : findInNode p n with
      | some m' =>
        rw [hfn] at h
        cases h
        exact findInNode_found_sat p n m hfn
      | none =>
        rw [hfn] at h
        exact findInList_found_sat p rest m h

end

/-- C3.  `generateNavigation` leaves the nav menu untouched when
`config.navigation.enabled` is falsy; otherwise (given the document's
sections list and an existing `.nav-menu` element) it replaces the menu's
contents wholesale with exactly one entry per section in section order, the
i-th being a link with href `"#" ++ id` and the section title as label. -/
theorem nav_generation (d : Data) (doc : Document) (ss : List Sec) (nm : Node) :
    (navEnabled d = false → generateNavigation d doc = doc) ∧
    (navEnabled d = true → d.sections = some ss →
      docFind (fun n => hasClass n "nav-menu") doc.root = some nm →
      docFind (fun n => hasClass n "nav-menu") (generateNavigation d doc).root =
        some (setKids nm (ss.map navEntry)) ∧
      ∀ i (h : i < ss.length),
        (ss.map navEntry).get ⟨i, by simpa using h⟩ =
          Node.elem "li" []
            [Node.elem "a" [("href", "#" ++ (ss.get ⟨i, h⟩).id), ("class", "nav-link")]
              [Node.text (ss.get ⟨i, h⟩).title]]) := by
  constructor
  · intro h
    simp [generateNavigation, h]
  · intro hen hss hnm
    constructor
    · have hroot : (generateNavigation d doc).root =
          docUpdate (fun n => hasClass n "nav-menu")
            (fun x => setKids x (ss.map navEntry)) doc.root := by
        simp [generateNavigation, hen, hss]
      rw [hroot]
      refine docFind_after_update _ _ doc.root nm ?_ hnm ?_
      · intro t a cs cs'
        rfl
      · rw [hasClass_setKids]
        have := hnm
        -- the found node satisfies the selector
        exact findInNode_found_sat _ _ _ this
    · intro i h
      simp [navEntry]

/-- Witness data for C3: navigation enabled, three sections `a`, `b`, `c`. -/
def navData : Data :=
  { meta := none, personal := none, contacts := none, theme := none,
    config := some { navigation := some { enabled := true } },
    sections := some
      [{ id := "a", title := "A", type := "text", items := none, content := none },
       { id := "b", title := "B", type := "text", items := none, content := none },
       { id := "c", title := "C", type := "text", items := none, content := none }] }

/-- Witness page for C3: a nav menu with one stale entry. -/
def navDoc : Document :=
  { title := "t",
    root := Node.elem "html" []
      [Node.elem "ul" [("class", "nav-menu")] [Node.elem "li" [] [Node.text "stale"]]],
    styleVars := [], bodyFont := none }

/-- Witness for C3: with navigation enabled and sections `a,b,c`, the menu
ends with exactly the three generated links in order. -/
theorem nav_generation_witness :
    docFind (fun n => hasClass n "nav-menu") (generateNavigation navData navDoc).root =
      some (setKids (Node.elem "ul" [("class", "nav-menu")] [Node.elem "li" [] [Node.text "stale"]])
        (((navData.sections).getD []).map navEntry)) ∧
    (((navData.sections).getD []).map navEntry).get ⟨0, by decide⟩ =
      Node.elem "li" []
        [Node.elem "a" [("href", "#" ++ "a"), ("class", "nav-link")] [Node.text "A"]] := by
  have h := (nav_generation navData navDoc ((navData.sections).getD [])
    (Node.elem "ul" [("class", "nav-menu")] [Node.elem "li" [] [Node.text "stale"]])).2
    (by decide) (by decide) (by decide)
  exact ⟨h.1, h.2 0 (by decide)⟩

/-! ## Evaluation lemmas for searches and updates over explicit trees -/

theorem find_cons_pos (p : Node → Bool) (n : Node) (l : List Node) (h : p n = true) :
    findInList p (n :: l) = some n := by
  simp [findInList, h]

theorem find_cons_inner (p : Node → Bool) (n m : Node) (l : List Node)
    (h : p n = false) (h2 : findInNode p n = some m) :
    findInList p (n :: l) = some m := by
  simp [findInList, h, h2]

theorem find_cons_skip (p : Node → Bool) (n : Node) (l : List Node)
    (h : p n = false) (h2 : findInNode p n = none) :
    findInList p (n :: l) = findInList p l := by
  simp [findInList, h, h2]

theorem findInNode_elem (p : Node → Bool) (t : String) (a : List (String × String))
    (cs : List Node) : findInNode p (Node.elem t a cs) = findInList p cs := rfl

theorem upd_cons_pos (p : Node → Bool) (f : Node → Node) (n : Node) (l : List Node)
    (h : p n = true) : updInList p f (n :: l) = some (f n :: l) := by
  simp [updInList, h]

theorem upd_cons_inner (p : Node → Bool) (f : Node → Node) (n n' : Node) (l : List Node)
    (h : p n = false) (h2 : updInNode p f n = some n') :
    updInList p f (n :: l) = some (n' :: l) := by
  simp [updInList, h, h2]

theorem upd_cons_skip (p : Node → Bool) (f : Node → Node) (n : Node) (l : List Node)
    (h : p n = false) (h2 : updInNode p f n = none) :
    updInList p f (n :: l) = (updInList p f l).map (fun r => n :: r) := by
  cases hrest : updInList p f l <;> simp [updInList, h, h2, hrest]

theorem updInNode_elem (p : Node → Bool) (f : Node → Node) (t : String)
    (a : List (String × String)) (cs : List Node) :
    updInNode p f (Node.elem t a cs) = (updInList p f cs).map (fun r => Node.elem t a r) := by
  cases hcs : updInList p f cs <;> simp [updInNode, hcs]

theorem find_append (p : Node → Bool) (l1 l2 : List Node) :
    findInList p (l1 ++ l2) =
      match findInList p l1 with
      | some m => some m
      | none => findInList p l2 := by
  induction l1 with
  | nil => simp [findInList]
  | cons n rest ih =>
    by_cases hp : p n
    · simp [find_cons_pos p n _ hp]
    · have hp' : p n = false := by simpa using hp
      cases hfn : findInNode p n with
      | some m =>
        rw [List.cons_append, find_cons_inner p n m (rest ++ l2) hp' hfn,
          find_cons_inner p n m rest hp' hfn]
      | none =>
        rw [List.cons_append, find_cons_skip p n (rest ++ l2) hp' hfn,
          find_cons_skip p n rest hp' hfn, ih]

theorem upd_append (p : Node → Bool) (f : Node → Node) (l1 l2 : List Node) :
    updInList p f (l1 ++ l2) =
      match updInList p f l1 with
      | some l1' => some (l1' ++ l2)
      | none => (updInList p f l2).map (fun r => l1 ++ r) := by
  induction l1 with
  | nil => cases h2 : updInList p f l2 <;> simp [updInList, h2]
  | cons n rest ih =>
    by_cases hp : p n
    · simp [upd_cons_pos p f n _ hp]
    · have hp' : p n = false := by simpa using hp
      cases hfn : updInNode p f n with
      | some n' =>
        rw [List.cons_append, upd_cons_inner p f n n' (rest ++ l2) hp' hfn,
          upd_cons_inner p f n n' rest hp' hfn]
        simp
      | none =>
        rw [List.cons_append, upd_cons_skip p f n (rest ++ l2) hp' hfn,
          upd_cons_skip p f n rest hp' hfn, ih]
        cases h1 : updInList p f rest <;> cases h2 : updInList p f l2 <;> simp

/-- Decomposition of a no-match forest search. -/
theorem find_none_cons (p : Node → Bool) (n : Node) (l : List Node) :
    findInList p (n :: l) = none ↔
      (p n = false ∧ findInNode p n = none ∧ findInList p l = none) := by
  constructor
  · intro h
    by_cases hp : p n
    · rw [find_cons_pos p n l hp] at h; cases h
    · have hp' : p n = false := by simpa using hp
      cases hfn : findInNode p n with
      | some m => rw [find_cons_inner p n m l hp' hfn] at h; cases h
      | none =>
        rw [find_cons_skip p n l hp' hfn] at h
        exact ⟨hp', rfl, h⟩
  · rintro ⟨h1, h2, h3⟩
    rw [find_cons_skip p n l h1 h2]
    exact h3

mutual

/-- If a node's subtree has no `p`-match, any node another search returns
from it does not satisfy `p` (node level). -/
theorem find_none_found_node (p q : Node → Bool) :
    ∀ (n m : Node), findInNode p n = none → findInNode q n = some m → p m = false
  | Node.elem t a cs, m, hp, hq => by
    simp only [findInNode] at hp hq
    exact find_none_found_list p q cs m hp hq
  | Node.text s, m, _, hq => by simp [findInNode] at hq
  | Node.raw s, m, _, hq => by simp [findInNode] at hq

/-- If a forest has no `p`-match, any node another search returns from it
does not satisfy `p` (forest level). -/
theorem find_none_found_list (p q : Node → Bool) :
    ∀ (l : List Node) (m : Node), findInList p l = none → findInList q l = some m → p m = false
  | n :: rest, m, hp, hq => by
    rw [find_none_cons] at hp
    obtain ⟨hp1, hp2, hp3⟩ := hp
    simp only [findInList] at hq
    by_cases hqn : q n
    · rw [if_pos hqn] at hq
      cases hq
      exact hp1
    · rw [if_neg hqn] at hq
      cases hfn : findInNode q n with
      | some m' =>
        rw [hfn] at hq
        cases hq
        exact find_none_found_node p q n m hp2 hfn
      | none =>
        rw [hfn] at hq
        exact find_none_found_list p q rest m hp3 hq

end

mutual

/-- Search monotonicity: a stronger predicate has no match where a weaker
one has none (node level). -/
theorem find_mono_node (p q : Node → Bool) (himp : ∀ n, p n = true → q n = true) :
    ∀ n : Node, findInNode q n = none → findInNode p n = none
  | Node.elem t a cs, h => by
    simp only [findInNode] at h ⊢
    exact find_mono_list p q himp cs h
  | Node.text _, _ => rfl
  | Node.raw _, _ => rfl

/-- Search monotonicity (forest level). -/
theorem find_mono_list (p q : Node → Bool) (himp : ∀ n, p n = true → q n = true) :
    ∀ l : List Node, findInList q l = none → findInList p l = none
  | [], _ => rfl
  | n :: rest, h => by
    rw [find_none_cons] at h ⊢
    obtain ⟨h1, h2, h3⟩ := h
    refine ⟨?_, find_mono_node p q himp n h2, find_mono_list p q himp rest h3⟩
    by_cases hp : p n
    · rw [himp n hp] at h1; cases h1
    · simpa using hp

end

/-! ## Inertness of generated content

The render pass re-locates its targets by id, class and meta selectors; the
nodes the pass itself generates carry no id attribute, no `meta` tag and no
`name`/`title` class tokens, so re-running a pass finds the same targets. -/

/-- Does the node carry any id attribute? -/
def hasAnyId (n : Node) : Bool := (n.attr "id").isSome

/-- Umbrella over the id-driven and meta selectors. -/
def idMeta (n : Node) : Bool := isMetaDesc n || hasAnyId n

/-- Umbrella over every selector that can traverse generated or
user-supplied inner content. -/
def marked (n : Node) : Bool := idMeta n || hasClass n "name" || hasClass n "title"

theorem hasId_implies_idMeta (x : String) (n : Node) (h : hasId n x = true) :
    idMeta n = true := by
  unfold idMeta hasAnyId
  unfold hasId at h
  rcases n with _ | _ | _ <;> simp_all

theorem isMetaDesc_implies_idMeta (n : Node) (h : isMetaDesc n = true) : idMeta n = true := by
  simp [idMeta, h]

theorem idMeta_implies_marked (n : Node) (h : idMeta n = true) : marked n = true := by
  simp [marked, h]

theorem hasClass_name_implies_marked (n : Node) (h : hasClass n "name" = true) :
    marked n = true := by
  simp [marked, h]

theorem hasClass_title_implies_marked (n : Node) (h : hasClass n "title" = true) :
    marked n = true := by
  simp [marked, h]

/-- A mapped forest with inert images has no match. -/
theorem find_none_map {α : Type} (g : α → Node) (p : Node → Bool)
    (h : ∀ x, p (g x) = false ∧ findInNode p (g x) = none) :
    ∀ l : List α, findInList p (l.map g) = none
  | [] => rfl
  | x :: xs => by
    rw [List.map_cons, find_none_cons]
    exact ⟨(h x).1, (h x).2, find_none_map g p h xs⟩

theorem find_none_single (p : Node → Bool) (n : Node)
    (h1 : p n = false) (h2 : findInNode p n = none) : findInList p [n] = none := by
  rw [find_none_cons]
  exact ⟨h1, h2, rfl⟩

/-- Generated navigation entries are inert for every traversing selector. -/
theorem marked_free_navEntries : ∀ ss : List Sec,
    findInList marked (ss.map navEntry) = none := by
  refine find_none_map navEntry marked (fun sec => ⟨rfl, ?_⟩)
  unfold navEntry
  rw [findInNode_elem]
  refine find_none_single _ _ rfl ?_
  rw [findInNode_elem]
  exact find_none_single _ _ rfl rfl

theorem find_none_append (p : Node → Bool) (l1 l2 : List Node)
    (h1 : findInList p l1 = none) (h2 : findInList p l2 = none) :
    findInList p (l1 ++ l2) = none := by
  rw [find_append, h1]
  exact h2

/-- Header contact strip entries carry no id and no meta tag. -/
theorem idMeta_free_contactHeaderLink (c : Contact) :
    idMeta (contactHeaderLink c) = false ∧ findInNode idMeta (contactHeaderLink c) = none := by
  have hkids : findInList idMeta
      [Node.elem "i" [("class", c.icon)] [], Node.elem "span" [] [Node.text c.label]] = none := by
    rw [find_none_cons]
    refine ⟨rfl, rfl, ?_⟩
    rw [find_none_cons]
    refine ⟨rfl, ?_, rfl⟩
    rw [findInNode_elem]
    exact find_none_single _ _ rfl rfl
  unfold contactHeaderLink
  by_cases h : strStartsWith c.url "http" = true
  · rw [if_pos h]
    exact ⟨rfl, by rw [findInNode_elem]; exact hkids⟩
  · rw [if_neg h]
    exact ⟨rfl, by rw [findInNode_elem]; exact hkids⟩

/-- Contact block entries carry no id and no meta tag. -/
theorem idMeta_free_contactLinkP (c : Contact) :
    idMeta (contactLinkP c) = false ∧ findInNode idMeta (contactLinkP c) = none := by
  refine ⟨rfl, ?_⟩
  unfold contactLinkP
  rw [findInNode_elem]
  rw [find_none_cons]
  refine ⟨rfl, rfl, ?_⟩
  rw [find_none_cons]
  refine ⟨rfl, rfl, ?_⟩
  by_cases h : strStartsWith c.url "http" = true
  · rw [if_pos h]
    refine find_none_single _ _ rfl ?_
    rw [findInNode_elem]
    exact find_none_single _ _ rfl rfl
  · rw [if_neg h]
    refine find_none_single _ _ rfl ?_
    rw [findInNode_elem]
    exact find_none_single _ _ rfl rfl

/-- Contact section entries carry no id and no meta tag. -/
theorem idMeta_free_contactSectionEntry (c : Contact) :
    idMeta (contactSectionEntry c) = false ∧
    findInNode idMeta (contactSectionEntry c) = none := by
  refine ⟨rfl, ?_⟩
  unfold contactSectionEntry
  rw [findInNode_elem]
  rw [find_none_cons]
  refine ⟨rfl, rfl, ?_⟩
  by_cases h : strStartsWith c.url "http" = true
  · rw [if_pos h]
    refine find_none_single _ _ rfl ?_
    rw [findInNode_elem]
    exact find_none_single _ _ rfl rfl
  · rw [if_neg h]
    refine find_none_single _ _ rfl ?_
    rw [findInNode_elem]
    exact find_none_single _ _ rfl rfl

/-- Timeline detail entries carry no id and no meta tag. -/
theorem idMeta_free_detailNode (dt : Detail) :
    idMeta (detailNode dt) = false ∧ findInNode idMeta (detailNode dt) = none := by
  refine ⟨rfl, ?_⟩
  unfold detailNode
  rw [findInNode_elem]
  rw [find_none_cons]
  refine ⟨rfl, rfl, ?_⟩
  cases dt.tags with
  | none => rfl
  | some ts =>
    by_cases h : ts.length > 0
    · simp only [if_pos h]
      rw [find_none_cons]
      refine ⟨rfl, rfl, ?_⟩
      refine find_none_single _ _ rfl ?_
      rw [findInNode_elem]
      exact find_none_single _ _ rfl rfl
    · simp only [if_neg h]
      rfl

/-- Timeline items carry no id and no meta tag. -/
theorem idMeta_free_timelineItemNode (it : TimelineItem) :
    idMeta (timelineItemNode it) = false ∧
    findInNode idMeta (timelineItemNode it) = none := by
  refine ⟨rfl, ?_⟩
  unfold timelineItemNode
  rw [findInNode_elem]
  refine find_none_append _ _ _ (find_none_append _ _ _ (find_none_append _ _ _ ?_ ?_) ?_) ?_
  · refine find_none_single _ _ rfl ?_
    rw [findInNode_elem]
    exact find_none_single _ _ rfl rfl
  · cases it.subtitle with
    | none => rfl
    | some st =>
      have hh4 : ∀ kids : List Node,
          findInList idMeta kids = none →
          findInList idMeta [Node.elem "h4" [] kids] = none := by
        intro kids hk
        refine find_none_single _ _ rfl ?_
        rw [findInNode_elem]
        exact hk
      dsimp only
      cases hlinks : st.links with
      | none =>
        simp only [hlinks]
        exact hh4 [Node.text st.text] (find_none_single _ _ rfl rfl)
      | some ls =>
        simp only [hlinks]
        by_cases h : ls.length > 0
        · simp only [if_pos h]
          exact hh4 [Node.raw (renderLinkedText st.text ls)] (find_none_single _ _ rfl rfl)
        · simp only [if_neg h]
          exact hh4 [Node.text st.text] (find_none_single _ _ rfl rfl)
  · cases it.period with
    | none => rfl
    | some s =>
      by_cases h : s.isEmpty = true
      · simp only [if_pos h]
        rfl
      · simp only [if_neg h]
        refine find_none_single _ _ rfl ?_
        rw [findInNode_elem]
        exact find_none_single _ _ rfl rfl
  · cases it.details with
    | none => rfl
    | some ds =>
      by_cases h : ds.length > 0
      · simp only [if_pos h]
        refine find_none_single _ _ rfl ?_
        rw [findInNode_elem]
        exact find_none_map detailNode idMeta idMeta_free_detailNode ds
      · simp only [if_neg h]
        rfl

/-- Cards carry no id and no meta tag. -/
theorem idMeta_free_cardNode (c : Card) :
    idMeta (cardNode c) = false ∧ findInNode idMeta (cardNode c) = none := by
  refine ⟨rfl, ?_⟩
  unfold cardNode
  rw [findInNode_elem]
  refine find_none_append _ _ _ ?_ ?_
  · rw [find_none_cons]
    refine ⟨rfl, ?_, ?_⟩
    · rw [findInNode_elem]
      exact find_none_single _ _ rfl rfl
    · refine find_none_single _ _ rfl ?_
      rw [findInNode_elem]
      exact find_none_single _ _ rfl rfl
  · cases c.tags with
    | none => rfl
    | some ts =>
      by_cases h : ts.length > 0
      · simp only [if_pos h]
        refine find_none_single _ _ rfl ?_
        rw [findInNode_elem]
        refine find_none_single _ _ rfl ?_
        rw [findInNode_elem]
        exact find_none_single _ _ rfl rfl
      · simp only [if_neg h]
        rfl

/-- Category lines carry no id and no meta tag. -/
theorem idMeta_free_catNode (e : String × List String) :
    idMeta (catNode e) = false ∧ findInNode idMeta (catNode e) = none := by
  refine ⟨rfl, ?_⟩
  unfold catNode
  rw [findInNode_elem]
  exact find_none_single _ _ rfl rfl

/-- Renderer output carries no id attribute and no meta tag anywhere, so
re-locating mount points and the meta tag is unaffected by it. -/
theorem idMeta_free_rendererTail (d : Data) (sec : Sec) :
    findInList idMeta (rendererTail d sec) = none := by
  unfold rendererTail
  by_cases h1 : sec.type = "text"
  · simp only [if_pos h1]
    refine find_none_single _ _ rfl ?_
    rw [findInNode_elem]
    exact find_none_single _ _ rfl rfl
  · simp only [if_neg h1]
    by_cases h2 : sec.type = "timeline"
    · simp only [if_pos h2]
      cases hit : sec.items with
      | none => rfl
      | some it =>
        cases it <;>
          first
            | rfl
            | exact find_none_map timelineItemNode idMeta idMeta_free_timelineItemNode _
    · simp only [if_neg h2]
      by_cases h3 : sec.type = "categories"
      · simp only [if_pos h3]
        cases hit : sec.items with
        | none => rfl
        | some it =>
          cases it <;>
            first
              | rfl
              | exact find_none_map catNode idMeta idMeta_free_catNode _
      · simp only [if_neg h3]
        by_cases h4 : sec.type = "cards"
        · simp only [if_pos h4]
          cases hit : sec.items with
          | none => rfl
          | some it =>
            cases it <;>
              first
                | rfl
                | exact find_none_map cardNode idMeta idMeta_free_cardNode _
        · simp only [if_neg h4]
          by_cases h5 : sec.type = "contact"
          · simp only [if_pos h5]
            refine find_none_single _ _ rfl ?_
            rw [findInNode_elem]
            cases hres : resolveContacts d sec with
            | none => rfl
            | some l =>
              exact find_none_map contactSectionEntry idMeta idMeta_free_contactSectionEntry l
          · simp only [if_neg h5]
            rfl

theorem updInNode_none_of_find (p : Node → Bool) (f : Node → Node) (t : String)
    (a : List (String × String)) (cs : List Node) (h : findInList p cs = none) :
    updInNode p f (Node.elem t a cs) = none := by
  rw [updInNode_elem, findInList_none_upd p f cs h]
  rfl

theorem updInList_none_cons (p : Node → Bool) (f : Node → Node) (n : Node) (l : List Node)
    (hp : p n = false) (hn : updInNode p f n = none) (hl : updInList p f l = none) :
    updInList p f (n :: l) = none := by
  rw [upd_cons_skip p f n l hp hn, hl]
  rfl

/-! ## A well-formed page skeleton and the render pass over it

`stageRoot` is the canonical page shape of the mount-point contract: a head,
a nav bar holding the `.nav-menu`, a header with the `.name` and `.title`
elements and the `#header-contacts` strip, the static `#about` section with
its container, heading and summary paragraph, the `#contact-links` block,
and one mount point per declared section (id plus `.container` child).  The
render pass rewrites each region of this shape as a function of the Data
Document alone, which below yields idempotence of the pass. -/

/-- The canonical page skeleton shape, parameterized by the contents of each
region the renderer may rewrite. -/
def stageRoot (hk navk namek titlek hck aboutpk clk : List Node)
    (secL : List Node) : Node :=
  Node.elem "html" []
    [Node.elem "head" [] hk,
     Node.elem "body" []
       (Node.elem "nav" [("class", "navbar")]
          [Node.elem "ul" [("class", "nav-menu")] navk] ::
        Node.elem "header" []
          [Node.elem "h1" [("class", "name")] namek,
           Node.elem "p" [("class", "title")] titlek,
           Node.elem "div" [("id", "header-contacts")] hck] ::
        Node.elem "section" [("id", "about")]
          [Node.elem "div" [("class", "container")]
            [Node.elem "h2" [] [Node.text "About"], Node.elem "p" [] aboutpk]] ::
        Node.elem "div" [("id", "contact-links")] clk ::
        secL)]

/-- One declared section's mount point: `section#id > div.container`. -/
def mkSecEl (sid : String) (content : List Node) : Node :=
  Node.elem "section" [("id", sid)] [Node.elem "div" [("class", "container")] content]


/-- Rewriting the `.nav-menu` element rewrites exactly the nav region. -/
theorem stage_upd_navmenu (g : List Node)
    (hk navk namek titlek hck aboutpk clk secL : List Node)
    (hhk : findInList (fun n => hasClass n "nav-menu") hk = none) :
    docUpdate (fun n => hasClass n "nav-menu") (fun nm => setKids nm g)
        (stageRoot hk navk namek titlek hck aboutpk clk secL) =
      stageRoot hk g namek titlek hck aboutpk clk secL := by
  have hnav : updInNode (fun n => hasClass n "nav-menu") (fun nm => setKids nm g)
      (Node.elem "nav" [("class", "navbar")] [Node.elem "ul" [("class", "nav-menu")] navk]) =
      some (Node.elem "nav" [("class", "navbar")] [Node.elem "ul" [("class", "nav-menu")] g]) := by
    rw [updInNode_elem, upd_cons_pos _ _ _ _ rfl]
    rfl
  have hbody : updInNode (fun n => hasClass n "nav-menu") (fun nm => setKids nm g)
      (Node.elem "body" []
        (Node.elem "nav" [("class", "navbar")]
            [Node.elem "ul" [("class", "nav-menu")] navk] ::
         Node.elem "header" []
           [Node.elem "h1" [("class", "name")] namek,
            Node.elem "p" [("class", "title")] titlek,
            Node.elem "div" [("id", "header-contacts")] hck] ::
         Node.elem "section" [("id", "about")]
           [Node.elem "div" [("class", "container")]
             [Node.elem "h2" [] [Node.text "About"], Node.elem "p" [] aboutpk]] ::
         Node.elem "div" [("id", "contact-links")] clk ::
         secL)) =
      some (Node.elem "body" []
        (Node.elem "nav" [("class", "navbar")]
            [Node.elem "ul" [("class", "nav-menu")] g] ::
         Node.elem "header" []
           [Node.elem "h1" [("class", "name")] namek,
            Node.elem "p" [("class", "title")] titlek,
            Node.elem "div" [("id", "header-contacts")] hck] ::
         Node.elem "section" [("id", "about")]
           [Node.elem "div" [("class", "container")]
             [Node.elem "h2" [] [Node.text "About"], Node.elem "p" [] aboutpk]] ::
         Node.elem "div" [("id", "contact-links")] clk ::
         secL)) := by
    rw [updInNode_elem, upd_cons_inner _ _ _ _ _ rfl hnav]
    rfl
  have hheadN : updInNode (fun n => hasClass n "nav-menu") (fun nm => setKids nm g)
      (Node.elem "head" [] hk) = none :=
    updInNode_none_of_find _ _ _ _ _ hhk
  unfold stageRoot docUpdate
  rw [updInNode_elem, upd_cons_skip _ _ _ _ rfl hheadN,
    upd_cons_inner _ _ _ _ _ rfl hbody]
  rfl

/-- The nav bar region. -/
def navElem (navk : List Node) : Node :=
  Node.elem "nav" [("class", "navbar")] [Node.elem "ul" [("class", "nav-menu")] navk]

/-- The header region. -/
def headerElem (namek titlek hck : List Node) : Node :=
  Node.elem "header" []
    [Node.elem "h1" [("class", "name")] namek,
     Node.elem "p" [("class", "title")] titlek,
     Node.elem "div" [("id", "header-contacts")] hck]

/-- The static about region. -/
def aboutElem (aboutpk : List Node) : Node :=
  Node.elem "section" [("id", "about")]
    [Node.elem "div" [("class", "container")]
      [Node.elem "h2" [] [Node.text "About"], Node.elem "p" [] aboutpk]]

/-- The contact block region. -/
def clElem (clk : List Node) : Node := Node.elem "div" [("id", "contact-links")] clk

theorem stageRoot_eq (hk navk namek titlek hck aboutpk clk secL : List Node) :
    stageRoot hk navk namek titlek hck aboutpk clk secL =
      Node.elem "html" []
        [Node.elem "head" [] hk,
         Node.elem "body" []
           (navElem navk :: headerElem namek titlek hck ::
            aboutElem aboutpk :: clElem clk :: secL)] := rfl

/-- Generic plumbing: an update that misses the head lands in the body. -/
theorem docUpdate_html (p : Node → Bool) (f : Node → Node)
    (hk bodyKids bodyKids' : List Node)
    (hhead_p : p (Node.elem "head" [] hk) = false)
    (hhk : findInList p hk = none)
    (hbody_p : p (Node.elem "body" [] bodyKids) = false)
    (hupd : updInList p f bodyKids = some bodyKids') :
    docUpdate p f
        (Node.elem "html" [] [Node.elem "head" [] hk, Node.elem "body" [] bodyKids]) =
      Node.elem "html" [] [Node.elem "head" [] hk, Node.elem "body" [] bodyKids'] := by
  have hheadN := updInNode_none_of_find p f "head" [] hk hhk
  have hbodyN : updInNode p f (Node.elem "body" [] bodyKids) =
      some (Node.elem "body" [] bodyKids') := by
    rw [updInNode_elem, hupd]
    rfl
  unfold docUpdate
  rw [updInNode_elem, upd_cons_skip _ _ _ _ hhead_p hheadN,
    upd_cons_inner _ _ _ _ _ hbody_p hbodyN]
  rfl

/-- Generic plumbing: a search that misses the head lands in the body. -/
theorem docFind_html (p : Node → Bool) (hk bodyKids : List Node) (m : Node)
    (hhead_p : p (Node.elem "head" [] hk) = false)
    (hhk : findInList p hk = none)
    (hbody_p : p (Node.elem "body" [] bodyKids) = false)
    (hfind : findInList p bodyKids = some m) :
    docFind p (Node.elem "html" [] [Node.elem "head" [] hk, Node.elem "body" [] bodyKids]) =
      some m := by
  unfold docFind
  rw [findInNode_elem,
    find_cons_skip _ _ _ hhead_p (by rw [findInNode_elem]; exact hhk),
    find_cons_inner _ _ m _ hbody_p (by rw [findInNode_elem]; exact hfind)]

/-- Generic plumbing: a search that misses head and body misses the page. -/
theorem docFind_html_none (p : Node → Bool) (hk bodyKids : List Node)
    (hhead_p : p (Node.elem "head" [] hk) = false)
    (hhk : findInList p hk = none)
    (hbody_p : p (Node.elem "body" [] bodyKids) = false)
    (hfind : findInList p bodyKids = none) :
    docFind p (Node.elem "html" [] [Node.elem "head" [] hk, Node.elem "body" [] bodyKids]) =
      none := by
  unfold docFind
  rw [findInNode_elem,
    find_cons_skip _ _ _ hhead_p (by rw [findInNode_elem]; exact hhk),
    find_cons_skip _ _ _ hbody_p (by rw [findInNode_elem]; exact hfind)]
  rfl

/-- A search that misses the head finds the head tag update target: the
`head` element is the page's first element, so appending the created meta
tag needs no side conditions. -/
theorem stage_upd_head_append (mn : Node)
    (hk navk namek titlek hck aboutpk clk secL : List Node) :
    docUpdate (fun n => hasTag n "head") (fun h => appendChild h mn)
        (stageRoot hk navk namek titlek hck aboutpk clk secL) =
      stageRoot (hk ++ [mn]) navk namek titlek hck aboutpk clk secL := by
  unfold stageRoot docUpdate
  rw [updInNode_elem, upd_cons_pos _ _ _ _ rfl]
  rfl

/-- A meta tag sitting in the head is what the document-wide meta search
returns. -/
theorem stage_find_meta_some (m : Node)
    (hk navk namek titlek hck aboutpk clk secL : List Node)
    (hfind : findInList isMetaDesc hk = some m) :
    docFind isMetaDesc (stageRoot hk navk namek titlek hck aboutpk clk secL) = some m := by
  unfold stageRoot docFind
  rw [findInNode_elem, find_cons_inner _ _ m _ rfl (by rw [findInNode_elem]; exact hfind)]

/-- Updating the meta tag found in the head only rewrites the head region. -/
theorem stage_upd_meta_content (f : Node → Node)
    (hk hk' navk namek titlek hck aboutpk clk secL : List Node)
    (hupd : updInList isMetaDesc f hk = some hk') :
    docUpdate isMetaDesc f (stageRoot hk navk namek titlek hck aboutpk clk secL) =
      stageRoot hk' navk namek titlek hck aboutpk clk secL := by
  have hheadN : updInNode isMetaDesc f (Node.elem "head" [] hk) =
      some (Node.elem "head" [] hk') := by
    rw [updInNode_elem, hupd]
    rfl
  unfold stageRoot docUpdate
  rw [updInNode_elem, upd_cons_inner _ _ _ _ _ rfl hheadN]
  rfl

/-- Setting the `.name` element rewrites exactly the name region. -/
theorem stage_upd_name (s : String)
    (hk navk namek titlek hck aboutpk clk secL : List Node)
    (hhk : findInList (fun n => hasClass n "name") hk = none)
    (hnavk : findInList (fun n => hasClass n "name") navk = none) :
    docUpdate (fun n => hasClass n "name") (setText s)
        (stageRoot hk navk namek titlek hck aboutpk clk secL) =
      stageRoot hk navk [Node.text s] titlek hck aboutpk clk secL := by
  rw [stageRoot_eq, stageRoot_eq]
  refine docUpdate_html _ _ _ _ _ rfl hhk rfl ?_
  have hnavN : updInNode (fun n => hasClass n "name") (setText s) (navElem navk) = none := by
    unfold navElem
    apply updInNode_none_of_find
    exact find_none_single _ _ rfl (by rw [findInNode_elem]; exact hnavk)
  have hheaderN : updInNode (fun n => hasClass n "name") (setText s)
      (headerElem namek titlek hck) = some (headerElem [Node.text s] titlek hck) := by
    unfold headerElem
    rw [updInNode_elem, upd_cons_pos _ _ _ _ rfl]
    rfl
  rw [upd_cons_skip _ _ _ _ rfl hnavN, upd_cons_inner _ _ _ _ _ rfl hheaderN]
  rfl

/-- Setting the `.title` element rewrites exactly the title region. -/
theorem stage_upd_title (s : String)
    (hk navk namek titlek hck aboutpk clk secL : List Node)
    (hhk : findInList (fun n => hasClass n "title") hk = none)
    (hnavk : findInList (fun n => hasClass n "title") navk = none)
    (hnamek : findInList (fun n => hasClass n "title") namek = none) :
    docUpdate (fun n => hasClass n "title") (setText s)
        (stageRoot hk navk namek titlek hck aboutpk clk secL) =
      stageRoot hk navk namek [Node.text s] hck aboutpk clk secL := by
  rw [stageRoot_eq, stageRoot_eq]
  refine docUpdate_html _ _ _ _ _ rfl hhk rfl ?_
  have hnavN : updInNode (fun n => hasClass n "title") (setText s) (navElem navk) = none := by
    unfold navElem
    apply updInNode_none_of_find
    exact find_none_single _ _ rfl (by rw [findInNode_elem]; exact hnavk)
  have hheaderN : updInNode (fun n => hasClass n "title") (setText s)
      (headerElem namek titlek hck) = some (headerElem namek [Node.text s] hck) := by
    unfold headerElem
    rw [updInNode_elem]
    rw [upd_cons_skip _ _ _ _ rfl
      (updInNode_none_of_find _ _ _ _ _ hnamek)]
    rw [upd_cons_pos _ _ _ _ rfl]
    rfl
  rw [upd_cons_skip _ _ _ _ rfl hnavN, upd_cons_inner _ _ _ _ _ rfl hheaderN]
  rfl

/-- Setting the `#about p` summary rewrites exactly the about paragraph. -/
theorem stage_upd_aboutp (s : String)
    (hk navk namek titlek hck aboutpk clk secL : List Node)
    (hhk : findInList (fun n => hasId n "about") hk = none)
    (hnavk : findInList (fun n => hasId n "about") navk = none)
    (hnamek : findInList (fun n => hasId n "about") namek = none)
    (htitlek : findInList (fun n => hasId n "about") titlek = none)
    (hhck : findInList (fun n => hasId n "about") hck = none) :
    docUpdate (fun n => hasId n "about")
        (fun ab =>
          match updInNode (fun n => hasTag n "p") (setInner s) ab with
          | some ab' => ab'
          | none => ab)
        (stageRoot hk navk namek titlek hck aboutpk clk secL) =
      stageRoot hk navk namek titlek hck [Node.raw s] clk secL := by
  rw [stageRoot_eq, stageRoot_eq]
  refine docUpdate_html _ _ _ _ _ rfl hhk rfl ?_
  have hnavN : updInNode (fun n => hasId n "about")
      (fun ab =>
          match updInNode (fun n => hasTag n "p") (setInner s) ab with
          | some ab' => ab'
          | none => ab) (navElem navk) = none := by
    unfold navElem
    apply updInNode_none_of_find
    exact find_none_single _ _ rfl (by rw [findInNode_elem]; exact hnavk)
  have hheaderN : updInNode (fun n => hasId n "about")
      (fun ab =>
          match updInNode (fun n => hasTag n "p") (setInner s) ab with
          | some ab' => ab'
          | none => ab)
      (headerElem namek titlek hck) = none := by
    unfold headerElem
    apply updInNode_none_of_find
    refine (find_none_cons _ _ _).mpr ⟨rfl, by rw [findInNode_elem]; exact hnamek, ?_⟩
    refine (find_none_cons _ _ _).mpr ⟨rfl, by rw [findInNode_elem]; exact htitlek, ?_⟩
    exact find_none_single _ _ rfl (by rw [findInNode_elem]; exact hhck)
  rw [upd_cons_skip _ _ _ _ rfl hnavN, upd_cons_skip _ _ _ _ rfl hheaderN,
    upd_cons_pos _ _ _ _ rfl]
  rfl

/-- Repopulating `#header-contacts` rewrites exactly that strip. -/
theorem stage_upd_hc (g : List Node)
    (hk navk namek titlek hck aboutpk clk secL : List Node)
    (hhk : findInList (fun n => hasId n "header-contacts") hk = none)
    (hnavk : findInList (fun n => hasId n "header-contacts") navk = none)
    (hnamek : findInList (fun n => hasId n "header-contacts") namek = none)
    (htitlek : findInList (fun n => hasId n "header-contacts") titlek = none) :
    docUpdate (fun n => hasId n "header-contacts") (fun n => setKids n g)
        (stageRoot hk navk namek titlek hck aboutpk clk secL) =
      stageRoot hk navk namek titlek g aboutpk clk secL := by
  rw [stageRoot_eq, stageRoot_eq]
  refine docUpdate_html _ _ _ _ _ rfl hhk rfl ?_
  have hnavN : updInNode (fun n => hasId n "header-contacts") (fun n => setKids n g)
      (navElem navk) = none := by
    unfold navElem
    apply updInNode_none_of_find
    exact find_none_single _ _ rfl (by rw [findInNode_elem]; exact hnavk)
  have hheaderN : updInNode (fun n => hasId n "header-contacts") (fun n => setKids n g)
      (headerElem namek titlek hck) = some (headerElem namek titlek g) := by
    unfold headerElem
    rw [updInNode_elem]
    rw [upd_cons_skip _ _ _ _ rfl (updInNode_none_of_find _ _ _ _ _ hnamek)]
    rw [upd_cons_skip _ _ _ _ rfl (updInNode_none_of_find _ _ _ _ _ htitlek)]
    rw [upd_cons_pos _ _ _ _ rfl]
    rfl
  rw [upd_cons_skip _ _ _ _ rfl hnavN, upd_cons_inner _ _ _ _ _ rfl hheaderN]
  rfl

/-- Repopulating `#contact-links` rewrites exactly that block. -/
theorem stage_upd_cl (g : List Node)
    (hk navk namek titlek hck aboutpk clk secL : List Node)
    (hhk : findInList (fun n => hasId n "contact-links") hk = none)
    (hnavk : findInList (fun n => hasId n "contact-links") navk = none)
    (hnamek : findInList (fun n => hasId n "contact-links") namek = none)
    (htitlek : findInList (fun n => hasId n "contact-links") titlek = none)
    (hhck : findInList (fun n => hasId n "contact-links") hck = none)
    (haboutpk : findInList (fun n => hasId n "contact-links") aboutpk = none) :
    docUpdate (fun n => hasId n "contact-links") (fun n => setKids n g)
        (stageRoot hk navk namek titlek hck aboutpk clk secL) =
      stageRoot hk navk namek titlek hck aboutpk g secL := by
  rw [stageRoot_eq, stageRoot_eq]
  refine docUpdate_html _ _ _ _ _ rfl hhk rfl ?_
  have hnavN : updInNode (fun n => hasId n "contact-links") (fun n => setKids n g)
      (navElem navk) = none := by
    unfold navElem
    apply updInNode_none_of_find
    exact find_none_single _ _ rfl (by rw [findInNode_elem]; exact hnavk)
  have hheaderN : updInNode (fun n => hasId n "contact-links") (fun n => setKids n g)
      (headerElem namek titlek hck) = none := by
    unfold headerElem
    apply updInNode_none_of_find
    refine (find_none_cons _ _ _).mpr ⟨rfl, by rw [findInNode_elem]; exact hnamek, ?_⟩
    refine (find_none_cons _ _ _).mpr ⟨rfl, by rw [findInNode_elem]; exact htitlek, ?_⟩
    exact find_none_single _ _ rfl (by rw [findInNode_elem]; exact hhck)
  have haboutN : updInNode (fun n => hasId n "contact-links") (fun n => setKids n g)
      (aboutElem aboutpk) = none := by
    unfold aboutElem
    apply updInNode_none_of_find
    refine find_none_single _ _ rfl ?_
    rw [findInNode_elem]
    refine (find_none_cons _ _ _).mpr
      ⟨rfl, by rw [findInNode_elem]; exact find_none_single _ _ rfl rfl, ?_⟩
    exact find_none_single _ _ rfl (by rw [findInNode_elem]; exact haboutpk)
  rw [upd_cons_skip _ _ _ _ rfl hnavN, upd_cons_skip _ _ _ _ rfl hheaderN,
    upd_cons_skip _ _ _ _ rfl haboutN, upd_cons_pos _ _ _ _ rfl]
  rfl

/-- The `#header-contacts` mount point is found in the header region. -/
theorem stage_find_hc
    (hk navk namek titlek hck aboutpk clk secL : List Node)
    (hhk : findInList (fun n => hasId n "header-contacts") hk = none)
    (hnavk : findInList (fun n => hasId n "header-contacts") navk = none)
    (hnamek : findInList (fun n => hasId n "header-contacts") namek = none)
    (htitlek : findInList (fun n => hasId n "header-contacts") titlek = none) :
    docFind (fun n => hasId n "header-contacts")
        (stageRoot hk navk namek titlek hck aboutpk clk secL) =
      some (Node.elem "div" [("id", "header-contacts")] hck) := by
  rw [stageRoot_eq]
  refine docFind_html _ _ _ _ rfl hhk rfl ?_
  have hnavN : findInNode (fun n => hasId n "header-contacts") (navElem navk) = none := by
    unfold navElem
    rw [findInNode_elem]
    exact find_none_single _ _ rfl (by rw [findInNode_elem]; exact hnavk)
  rw [find_cons_skip _ _ _ rfl hnavN]
  have hheaderI : findInNode (fun n => hasId n "header-contacts")
      (headerElem namek titlek hck) =
      some (Node.elem "div" [("id", "header-contacts")] hck) := by
    unfold headerElem
    rw [findInNode_elem]
    rw [find_cons_skip _ _ _ rfl (by rw [findInNode_elem]; exact hnamek)]
    rw [find_cons_skip _ _ _ rfl (by rw [findInNode_elem]; exact htitlek)]
    rw [find_cons_pos _ _ _ rfl]
  rw [find_cons_inner _ _ _ _ rfl hheaderI]

/-- The `#contact-links` mount point is found after the static regions. -/
theorem stage_find_cl
    (hk navk namek titlek hck aboutpk clk secL : List Node)
    (hhk : findInList (fun n => hasId n "contact-links") hk = none)
    (hnavk : findInList (fun n => hasId n "contact-links") navk = none)
    (hnamek : findInList (fun n => hasId n "contact-links") namek = none)
    (htitlek : findInList (fun n => hasId n "contact-links") titlek = none)
    (hhck : findInList (fun n => hasId n "contact-links") hck = none)
    (haboutpk : findInList (fun n => hasId n "contact-links") aboutpk = none) :
    docFind (fun n => hasId n "contact-links")
        (stageRoot hk navk namek titlek hck aboutpk clk secL) =
      some (Node.elem "div" [("id", "contact-links")] clk) := by
  rw [stageRoot_eq]
  refine docFind_html _ _ _ _ rfl hhk rfl ?_
  have hnavN : findInNode (fun n => hasId n "contact-links") (navElem navk) = none := by
    unfold navElem
    rw [findInNode_elem]
    exact find_none_single _ _ rfl (by rw [findInNode_elem]; exact hnavk)
  have hheaderN : findInNode (fun n => hasId n "contact-links")
      (headerElem namek titlek hck) = none := by
    unfold headerElem
    rw [findInNode_elem]
    refine (find_none_cons _ _ _).mpr ⟨rfl, by rw [findInNode_elem]; exact hnamek, ?_⟩
    refine (find_none_cons _ _ _).mpr ⟨rfl, by rw [findInNode_elem]; exact htitlek, ?_⟩
    exact find_none_single _ _ rfl (by rw [findInNode_elem]; exact hhck)
  have haboutN : findInNode (fun n => hasId n "contact-links") (aboutElem aboutpk) = none := by
    unfold aboutElem
    rw [findInNode_elem]
    refine find_none_single _ _ rfl ?_
    rw [findInNode_elem]
    refine (find_none_cons _ _ _).mpr
      ⟨rfl, by rw [findInNode_elem]; exact find_none_single _ _ rfl rfl, ?_⟩
    exact find_none_single _ _ rfl (by rw [findInNode_elem]; exact haboutpk)
  rw [find_cons_skip _ _ _ rfl hnavN, find_cons_skip _ _ _ rfl hheaderN,
    find_cons_skip _ _ _ rfl haboutN, find_cons_pos _ _ _ rfl]
  rfl

/-- With no meta tag anywhere, the document-wide meta search fails. -/
theorem stage_find_meta_none
    (hk navk namek titlek hck aboutpk clk secL : List Node)
    (hhk : findInList isMetaDesc hk = none)
    (hnavk : findInList isMetaDesc navk = none)
    (hnamek : findInList isMetaDesc namek = none)
    (htitlek : findInList isMetaDesc titlek = none)
    (hhck : findInList isMetaDesc hck = none)
    (haboutpk : findInList isMetaDesc aboutpk = none)
    (hclk : findInList isMetaDesc clk = none)
    (hsecL : findInList isMetaDesc secL = none) :
    docFind isMetaDesc (stageRoot hk navk namek titlek hck aboutpk clk secL) = none := by
  rw [stageRoot_eq]
  refine docFind_html_none _ _ _ rfl hhk rfl ?_
  refine (find_none_cons _ _ _).mpr ⟨rfl, ?_, ?_⟩
  · unfold navElem
    rw [findInNode_elem]
    exact find_none_single _ _ rfl (by rw [findInNode_elem]; exact hnavk)
  refine (find_none_cons _ _ _).mpr ⟨rfl, ?_, ?_⟩
  · unfold headerElem
    rw [findInNode_elem]
    refine (find_none_cons _ _ _).mpr ⟨rfl, by rw [findInNode_elem]; exact hnamek, ?_⟩
    refine (find_none_cons _ _ _).mpr ⟨rfl, by rw [findInNode_elem]; exact htitlek, ?_⟩
    exact find_none_single _ _ rfl (by rw [findInNode_elem]; exact hhck)
  refine (find_none_cons _ _ _).mpr ⟨rfl, ?_, ?_⟩
  · unfold aboutElem
    rw [findInNode_elem]
    refine find_none_single _ _ rfl ?_
    rw [findInNode_elem]
    refine (find_none_cons _ _ _).mpr
      ⟨rfl, by rw [findInNode_elem]; exact find_none_single _ _ rfl rfl, ?_⟩
    exact find_none_single _ _ rfl (by rw [findInNode_elem]; exact haboutpk)
  refine (find_none_cons _ _ _).mpr ⟨rfl, ?_, hsecL⟩
  unfold clElem
  rw [findInNode_elem]
  exact hclk

theorem hasId_id_attr_eq (t v : String) (cs : List Node) :
    hasId (Node.elem t [("id", v)] cs) v = true := by
  simp [hasId, Node.attr, attrGet]

theorem hasId_id_attr_ne (t v sid : String) (cs : List Node) (h : v ≠ sid) :
    hasId (Node.elem t [("id", v)] cs) sid = false := by
  simp [hasId, Node.attr, attrGet, h]

theorem hasId_implies_hasAnyId (sid : String) (n : Node) (h : hasId n sid = true) :
    hasAnyId n = true := by
  unfold hasAnyId
  unfold hasId at h
  rcases n with _ | _ | _ <;> simp_all

/-- The rendered form of one declared section's mount point. -/
def rendSecEl (d : Data) (sec : Sec) (content : List Node) : Node :=
  Node.elem "section" [("id", sec.id)]
    [Node.elem "div" [("class", "container")]
      (headingFor sec (Node.elem "div" [("class", "container")] content) ::
        rendererTail d sec)]

/-- Applying the per-section body of the loop to a mount point renders it. -/
theorem step_on_mount (d : Data) (sec : Sec) (content : List Node) :
    (match updInNode (fun n => hasClass n "container") (sectionTransform d sec)
        (mkSecEl sec.id content) with
     | some se' => se'
     | none => mkSecEl sec.id content) = rendSecEl d sec content := by
  have h1 : updInNode (fun n => hasClass n "container") (sectionTransform d sec)
      (mkSecEl sec.id content) =
      some (Node.elem "section" [("id", sec.id)]
        [sectionTransform d sec (Node.elem "div" [("class", "container")] content)]) := by
    unfold mkSecEl
    rw [updInNode_elem, upd_cons_pos _ _ _ _ rfl]
    rfl
  rw [h1, sectionTransform_elem]
  rfl

/-- A heading built from id-free container content carries no id. -/
theorem heading_skip (sec : Sec) (content : List Node) (sid : String)
    (hc : findInList hasAnyId content = none) :
    hasId (headingFor sec (Node.elem "div" [("class", "container")] content)) sid = false ∧
    findInNode (fun n => hasId n sid)
      (headingFor sec (Node.elem "div" [("class", "container")] content)) = none := by
  unfold headingFor
  simp only [Node.kids]
  cases hfind : findInList (fun n => hasTag n "h2") content with
  | none => exact ⟨rfl, rfl⟩
  | some m =>
    cases m with
    | elem t ha cs =>
      have hm : hasAnyId (Node.elem t ha cs) = false :=
        find_none_found_list hasAnyId (fun n => hasTag n "h2") content _ hc hfind
      have hget : attrGet ha "id" = none := by
        have hm' : (attrGet ha "id").isSome = false := by
          simpa [hasAnyId, Node.attr] using hm
        cases hg : attrGet ha "id" with
        | none => rfl
        | some v => rw [hg] at hm'; simp at hm'
      constructor
      · simp [hasId, Node.attr, hget]
      · rfl
    | text s => exact ⟨rfl, rfl⟩
    | raw s => exact ⟨rfl, rfl⟩

/-- A rendered section is invisible to searches for a different id. -/
theorem rendSecEl_skip (d : Data) (sec : Sec) (content : List Node) (sid : String)
    (hne : sec.id ≠ sid) (hc : findInList hasAnyId content = none) :
    hasId (rendSecEl d sec content) sid = false ∧
    findInNode (fun n => hasId n sid) (rendSecEl d sec content) = none := by
  obtain ⟨hh1, hh2⟩ := heading_skip sec content sid hc
  refine ⟨hasId_id_attr_ne _ _ _ _ hne, ?_⟩
  unfold rendSecEl
  rw [findInNode_elem]
  refine find_none_single _ _ rfl ?_
  rw [findInNode_elem]
  refine (find_none_cons _ _ _).mpr ⟨hh1, hh2, ?_⟩
  refine find_mono_list _ idMeta (hasId_implies_idMeta sid) _ ?_
  exact idMeta_free_rendererTail d sec

/-- A raw mount point is likewise invisible to searches for a different id. -/
theorem mkSecEl_skip (sid2 : String) (content : List Node) (sid : String)
    (hne : sid2 ≠ sid) (hc : findInList hasAnyId content = none) :
    hasId (mkSecEl sid2 content) sid = false ∧
    findInNode (fun n => hasId n sid) (mkSecEl sid2 content) = none := by
  refine ⟨hasId_id_attr_ne _ _ _ _ hne, ?_⟩
  unfold mkSecEl
  rw [findInNode_elem]
  refine find_none_single _ _ rfl ?_
  rw [findInNode_elem]
  exact find_mono_list _ hasAnyId (hasId_implies_hasAnyId sid) _ hc

/-- The `renderSections` loop renders exactly the declared mount points of
the canonical skeleton, one per declared section in order, and touches
nothing else.  `L` pairs each declared section with its mount point's
initial container content; `done` holds the already-rendered prefix. -/
theorem stage_render_secs (d : Data) :
    ∀ (L : List (Sec × List Node)) (done : List Node)
      (hk navk namek titlek hck aboutpk clk : List Node),
      findInList hasAnyId hk = none →
      findInList hasAnyId navk = none →
      findInList hasAnyId namek = none →
      findInList hasAnyId titlek = none →
      findInList hasAnyId hck = none →
      findInList hasAnyId aboutpk = none →
      findInList hasAnyId clk = none →
      (L.map (fun q => q.1.id)).Nodup →
      (∀ q ∈ L, q.1.id ≠ "about" ∧ q.1.id ≠ "header-contacts" ∧ q.1.id ≠ "contact-links") →
      (∀ q ∈ L, findInList hasAnyId q.2 = none) →
      (∀ q ∈ L, findInList (fun n => hasId n q.1.id) done = none) →
      (L.map Prod.fst).foldl (fun r sec => renderSectionStep d sec r)
          (stageRoot hk navk namek titlek hck aboutpk clk
            (done ++ L.map (fun q => mkSecEl q.1.id q.2))) =
        stageRoot hk navk namek titlek hck aboutpk clk
          (done ++ L.map (fun q => rendSecEl d q.1 q.2)) := by
  intro L
  induction L with
  | nil => intro done hk navk namek titlek hck aboutpk clk _ _ _ _ _ _ _ _ _ _ _; simp
  | cons q L' ih =>
    intro done hk navk namek titlek hck aboutpk clk hhk hnavk hnamek htitlek hhck
      haboutpk hclk hnodup hresv hcont hdone
    obtain ⟨sec, content⟩ := q
    have hres := hresv ⟨sec, content⟩ (by simp)
    have hcontH : findInList hasAnyId content = none := hcont ⟨sec, content⟩ (by simp)
    have hmono : ∀ l : List Node, findInList hasAnyId l = none →
        findInList (fun n => hasId n sec.id) l = none := fun l h =>
      find_mono_list _ hasAnyId (hasId_implies_hasAnyId sec.id) l h
    have hstep : renderSectionStep d sec
        (stageRoot hk navk namek titlek hck aboutpk clk
          (done ++ mkSecEl sec.id content :: L'.map (fun q => mkSecEl q.1.id q.2))) =
        stageRoot hk navk namek titlek hck aboutpk clk
          (done ++ rendSecEl d sec content :: L'.map (fun q => mkSecEl q.1.id q.2)) := by
      unfold renderSectionStep
      rw [stageRoot_eq, stageRoot_eq]
      refine docUpdate_html _ _ _ _ _ rfl (hmono hk hhk) rfl ?_
      have hnavN : updInNode (fun n => hasId n sec.id)
          (fun se =>
            match updInNode (fun n => hasClass n "container") (sectionTransform d sec) se with
            | some se' => se'
            | none => se)
          (navElem navk) = none := by
        unfold navElem
        apply updInNode_none_of_find
        exact find_none_single _ _ rfl (by rw [findInNode_elem]; exact hmono navk hnavk)
      have hheaderN : updInNode (fun n => hasId n sec.id)
          (fun se =>
            match updInNode (fun n => hasClass n "container") (sectionTransform d sec) se with
            | some se' => se'
            | none => se)
          (headerElem namek titlek hck) = none := by
        unfold headerElem
        apply updInNode_none_of_find
        refine (find_none_cons _ _ _).mpr
          ⟨rfl, by rw [findInNode_elem]; exact hmono namek hnamek, ?_⟩
        refine (find_none_cons _ _ _).mpr
          ⟨rfl, by rw [findInNode_elem]; exact hmono titlek htitlek, ?_⟩
        refine find_none_single _ _ (hasId_id_attr_ne _ _ _ _ (Ne.symm hres.2.1)) ?_
        rw [findInNode_elem]
        exact hmono hck hhck
      have haboutN : updInNode (fun n => hasId n sec.id)
          (fun se =>
            match updInNode (fun n => hasClass n "container") (sectionTransform d sec) se with
            | some se' => se'
            | none => se)
          (aboutElem aboutpk) = none := by
        unfold aboutElem
        apply updInNode_none_of_find
        refine find_none_single _ _ rfl ?_
        rw [findInNode_elem]
        refine (find_none_cons _ _ _).mpr
          ⟨rfl, by rw [findInNode_elem]; exact find_none_single _ _ rfl rfl, ?_⟩
        exact find_none_single _ _ rfl (by rw [findInNode_elem]; exact hmono aboutpk haboutpk)
      have hclN : updInNode (fun n => hasId n sec.id)
          (fun se =>
            match updInNode (fun n => hasClass n "container") (sectionTransform d sec) se with
            | some se' => se'
            | none => se)
          (clElem clk) = none := by
        unfold clElem
        apply updInNode_none_of_find
        exact hmono clk hclk
      have hdoneU : updInList (fun n => hasId n sec.id)
          (fun se =>
            match updInNode (fun n => hasClass n "container") (sectionTransform d sec) se with
            | some se' => se'
            | none => se)
          done = none :=
        findInList_none_upd _ _ done (hdone ⟨sec, content⟩ (by simp))
      have hcurU : updInList (fun n => hasId n sec.id)
          (fun se =>
            match updInNode (fun n => hasClass n "container") (sectionTransform d sec) se with
            | some se' => se'
            | none => se)
          (mkSecEl sec.id content :: L'.map (fun q => mkSecEl q.1.id q.2)) =
          some (rendSecEl d sec content :: L'.map (fun q => mkSecEl q.1.id q.2)) := by
        rw [upd_cons_pos _ _ _ _ (hasId_id_attr_eq "section" sec.id _)]
        exact congrArg (fun x => some (x :: L'.map (fun q => mkSecEl q.1.id q.2)))
          (step_on_mount d sec content)
      rw [upd_cons_skip _ _ _ _ rfl hnavN,
        upd_cons_skip _ _ _ _ rfl hheaderN,
        upd_cons_skip _ _ _ _ (hasId_id_attr_ne _ _ _ _ (Ne.symm hres.1)) haboutN,
        upd_cons_skip _ _ _ _ (hasId_id_attr_ne _ _ _ _ (Ne.symm hres.2.2)) hclN,
        upd_append, hdoneU, hcurU]
      rfl
    have hne_tail : ∀ q ∈ L', sec.id ≠ q.1.id := by
      intro q hq heq
      have hnot := (List.nodup_cons.mp hnodup).1
      have hmem : q.1.id ∈ L'.map (fun q => q.1.id) :=
        List.mem_map_of_mem (fun q => q.1.id) hq
      rw [← heq] at hmem
      exact hnot hmem
    simp only [List.map_cons, List.foldl_cons]
    rw [hstep]
    have hreshape :
        done ++ rendSecEl d sec content :: L'.map (fun q => mkSecEl q.1.id q.2) =
          (done ++ [rendSecEl d sec content]) ++ L'.map (fun q => mkSecEl q.1.id q.2) := by
      simp
    have hreshape2 :
        done ++ rendSecEl d sec content :: L'.map (fun q => rendSecEl d q.1 q.2) =
          (done ++ [rendSecEl d sec content]) ++ L'.map (fun q => rendSecEl d q.1 q.2) := by
      simp
    rw [hreshape, hreshape2]
    refine ih (done ++ [rendSecEl d sec content]) hk navk namek titlek hck aboutpk clk
      hhk hnavk hnamek htitlek hhck haboutpk hclk
      (List.nodup_cons.mp hnodup).2
      (fun q hq => hresv q (List.mem_cons_of_mem _ hq))
      (fun q hq => hcont q (List.mem_cons_of_mem _ hq))
      (fun q hq => ?_)
    refine find_none_append _ _ _ (hdone q (List.mem_cons_of_mem _ hq)) ?_
    obtain ⟨hs1, hs2⟩ := rendSecEl_skip d sec content q.1.id (hne_tail q hq) hcontH
    exact find_none_single _ _ hs1 hs2

/-- Projection: the tree produced by the section loop. -/
theorem renderSectionsGo_fst (d : Data) :
    ∀ (ss : List Sec) (root : Node),
      (renderSectionsGo d ss root).1 =
        ss.foldl (fun r sec => renderSectionStep d sec r) root
  | [], _ => rfl
  | sec :: rest, root => by
    simp only [renderSectionsGo, List.foldl_cons]
    exact renderSectionsGo_fst d rest _

/-- The page as a document over the canonical skeleton. -/
def stageDoc (t0 : String) (sv : List (String × String)) (bf : Option String)
    (hk navk namek titlek hck aboutpk clk secL : List Node) : Document :=
  { title := t0, root := stageRoot hk navk namek titlek hck aboutpk clk secL,
    styleVars := sv, bodyFont := bf }

/-- The meta description tag `updateMeta` creates. -/
def metaNode (ds : String) : Node :=
  Node.elem "meta" [("name", "description"), ("content", ds)] []

/-- The head region after `updateMeta` on an initially meta-free head. -/
def metaTail (d : Data) : List Node :=
  match d.meta with
  | none => []
  | some m =>
    match m.description with
    | none => []
    | some ds => if ds.isEmpty then [] else [metaNode ds]

/-- `document.title` after `updateMeta`. -/
def titleFn (d : Data) (t0 : String) : String :=
  match d.meta with
  | none => t0
  | some m =>
    match m.title with
    | some t => if t.isEmpty then t0 else t
    | none => t0

/-- A region rewritten from an optional truthy string field. -/
def optRegion (o : Option String) (new : String → List Node) (old : List Node) : List Node :=
  match o with
  | none => old
  | some s => if s.isEmpty then old else new s

theorem optRegion_none (p : Node → Bool) (o : Option String) (new : String → List Node)
    (old : List Node) (hold : findInList p old = none)
    (hnew : ∀ s, findInList p (new s) = none) :
    findInList p (optRegion o new old) = none := by
  cases o with
  | none => exact hold
  | some s =>
    unfold optRegion
    dsimp only
    by_cases h : s.isEmpty = true
    · rw [if_pos h]; exact hold
    · rw [if_neg h]; exact hnew s

/-- The `.name` region after the pass. -/
def nameF (d : Data) (old : List Node) : List Node :=
  match d.personal with
  | none => old
  | some p => optRegion p.name (fun s => [Node.text s]) old

/-- The `.title` region after the pass. -/
def titleKF (d : Data) (old : List Node) : List Node :=
  match d.personal with
  | none => old
  | some p => optRegion p.title (fun s => [Node.text s]) old

/-- The `#about p` region after the pass. -/
def aboutF (d : Data) (old : List Node) : List Node :=
  match d.personal with
  | none => old
  | some p => optRegion p.summary (fun s => [Node.raw s]) old

/-- The `#header-contacts` region after the pass. -/
def hcF (d : Data) (old : List Node) : List Node :=
  match d.personal with
  | none => old
  | some _ =>
    match d.contacts with
    | some cs => cs.map contactHeaderLink
    | none => old

/-- The `#contact-links` region after the pass. -/
def clF (d : Data) (old : List Node) : List Node :=
  match d.personal with
  | none => old
  | some _ =>
    match d.contacts with
    | some cs => cs.map contactLinkP
    | none => old

/-- The `.nav-menu` region after the pass (the document is known to carry a
sections list). -/
def navF (d : Data) (ss : List Sec) (old : List Node) : List Node :=
  if navEnabled d then ss.map navEntry else old

/-- `setElementContent` for the `.name` selector over the skeleton. -/
theorem stage_setName_total (o : Option String)
    (hk navk namek titlek hck aboutpk clk secL : List Node)
    (hhk : findInList (fun n => hasClass n "name") hk = none)
    (hnavk : findInList (fun n => hasClass n "name") navk = none) :
    setElementContent (fun n => hasClass n "name") o false
        (stageRoot hk navk namek titlek hck aboutpk clk secL) =
      stageRoot hk navk (optRegion o (fun s => [Node.text s]) namek)
        titlek hck aboutpk clk secL := by
  cases o with
  | none => rfl
  | some s =>
    unfold setElementContent optRegion
    dsimp only
    by_cases h : s.isEmpty = true
    · rw [if_pos h, if_pos h]
    · rw [if_neg h, if_neg h]
      exact stage_upd_name s hk navk namek titlek hck aboutpk clk secL hhk hnavk

/-- `setElementContent` for the `.title` selector over the skeleton. -/
theorem stage_setTitle_total (o : Option String)
    (hk navk namek titlek hck aboutpk clk secL : List Node)
    (hhk : findInList (fun n => hasClass n "title") hk = none)
    (hnavk : findInList (fun n => hasClass n "title") navk = none)
    (hnamek : findInList (fun n => hasClass n "title") namek = none) :
    setElementContent (fun n => hasClass n "title") o false
        (stageRoot hk navk namek titlek hck aboutpk clk secL) =
      stageRoot hk navk namek (optRegion o (fun s => [Node.text s]) titlek)
        hck aboutpk clk secL := by
  cases o with
  | none => rfl
  | some s =>
    unfold setElementContent optRegion
    dsimp only
    by_cases h : s.isEmpty = true
    · rw [if_pos h, if_pos h]
    · rw [if_neg h, if_neg h]
      exact stage_upd_title s hk navk namek titlek hck aboutpk clk secL hhk hnavk hnamek

/-- `setAboutSummary` over the skeleton. -/
theorem stage_setAbout_total (o : Option String)
    (hk navk namek titlek hck aboutpk clk secL : List Node)
    (hhk : findInList (fun n => hasId n "about") hk = none)
    (hnavk : findInList (fun n => hasId n "about") navk = none)
    (hnamek : findInList (fun n => hasId n "about") namek = none)
    (htitlek : findInList (fun n => hasId n "about") titlek = none)
    (hhck : findInList (fun n => hasId n "about") hck = none) :
    setAboutSummary o (stageRoot hk navk namek titlek hck aboutpk clk secL) =
      stageRoot hk navk namek titlek hck
        (optRegion o (fun s => [Node.raw s]) aboutpk) clk secL := by
  cases o with
  | none => rfl
  | some s =>
    unfold setAboutSummary optRegion
    dsimp only
    by_cases h : s.isEmpty = true
    · rw [if_pos h, if_pos h]
    · rw [if_neg h, if_neg h]
      exact stage_upd_aboutp s hk navk namek titlek hck aboutpk clk secL
        hhk hnavk hnamek htitlek hhck

/-- `renderContacts` over the skeleton: both strips are repopulated exactly
when a contacts list is present. -/
theorem stage_renderContacts_total (d : Data)
    (hk navk namek titlek hck aboutpk clk secL : List Node)
    (hhk1 : findInList (fun n => hasId n "header-contacts") hk = none)
    (hnavk1 : findInList (fun n => hasId n "header-contacts") navk = none)
    (hnamek1 : findInList (fun n => hasId n "header-contacts") namek = none)
    (htitlek1 : findInList (fun n => hasId n "header-contacts") titlek = none)
    (hhk2 : findInList (fun n => hasId n "contact-links") hk = none)
    (hnavk2 : findInList (fun n => hasId n "contact-links") navk = none)
    (hnamek2 : findInList (fun n => hasId n "contact-links") namek = none)
    (htitlek2 : findInList (fun n => hasId n "contact-links") titlek = none)
    (hhck2 : findInList (fun n => hasId n "contact-links") hck = none)
    (haboutpk2 : findInList (fun n => hasId n "contact-links") aboutpk = none) :
    renderContacts d (stageRoot hk navk namek titlek hck aboutpk clk secL) =
      stageRoot hk navk namek titlek
        (match d.contacts with
         | some cs => cs.map contactHeaderLink
         | none => hck)
        aboutpk
        (match d.contacts with
         | some cs => cs.map contactLinkP
         | none => clk)
        secL := by
  cases hc : d.contacts with
  | none =>
    unfold renderContacts
    simp [hc]
  | some cs =>
    have hfind1 := stage_find_hc hk navk namek titlek hck aboutpk clk secL
      hhk1 hnavk1 hnamek1 htitlek1
    have hmapcl : findInList (fun n => hasId n "contact-links")
        (cs.map contactHeaderLink) = none := by
      refine find_mono_list _ idMeta (hasId_implies_idMeta "contact-links") _ ?_
      exact find_none_map contactHeaderLink idMeta idMeta_free_contactHeaderLink cs
    have hupd1 := stage_upd_hc (cs.map contactHeaderLink)
      hk navk namek titlek hck aboutpk clk secL hhk1 hnavk1 hnamek1 htitlek1
    have hfind2 := stage_find_cl hk navk namek titlek (cs.map contactHeaderLink)
      aboutpk clk secL hhk2 hnavk2 hnamek2 htitlek2 hmapcl haboutpk2
    have hupd2 := stage_upd_cl (cs.map contactLinkP)
      hk navk namek titlek (cs.map contactHeaderLink) aboutpk clk secL
      hhk2 hnavk2 hnamek2 htitlek2 hmapcl haboutpk2
    unfold renderContacts
    rw [hc, hfind1]
    simp only [Option.isSome_some, Bool.and_self, if_true, Option.getD_some]
    rw [hupd1, hfind2]
    simp only [Option.isSome_some, Bool.and_self, if_true, Option.getD_some]
    rw [hupd2]

/-- `renderHeader` over the skeleton: the name, title, summary and the two
contact strips become functions of `personal` and `contacts` alone. -/
theorem stage_renderHeader (d : Data) (t0 : String) (sv : List (String × String))
    (bf : Option String) (hk navk namek titlek hck aboutpk clk secL : List Node)
    (hN_hk : findInList (fun n => hasClass n "name") hk = none)
    (hN_navk : findInList (fun n => hasClass n "name") navk = none)
    (hT_hk : findInList (fun n => hasClass n "title") hk = none)
    (hT_navk : findInList (fun n => hasClass n "title") navk = none)
    (hT_namek : findInList (fun n => hasClass n "title") namek = none)
    (hA_hk : findInList (fun n => hasId n "about") hk = none)
    (hA_navk : findInList (fun n => hasId n "about") navk = none)
    (hA_namek : findInList (fun n => hasId n "about") namek = none)
    (hA_titlek : findInList (fun n => hasId n "about") titlek = none)
    (hA_hck : findInList (fun n => hasId n "about") hck = none)
    (hHC_hk : findInList (fun n => hasId n "header-contacts") hk = none)
    (hHC_navk : findInList (fun n => hasId n "header-contacts") navk = none)
    (hHC_namek : findInList (fun n => hasId n "header-contacts") namek = none)
    (hHC_titlek : findInList (fun n => hasId n "header-contacts") titlek = none)
    (hCL_hk : findInList (fun n => hasId n "contact-links") hk = none)
    (hCL_navk : findInList (fun n => hasId n "contact-links") navk = none)
    (hCL_namek : findInList (fun n => hasId n "contact-links") namek = none)
    (hCL_titlek : findInList (fun n => hasId n "contact-links") titlek = none)
    (hCL_hck : findInList (fun n => hasId n "contact-links") hck = none)
    (hCL_aboutpk : findInList (fun n => hasId n "contact-links") aboutpk = none) :
    renderHeader d (stageDoc t0 sv bf hk navk namek titlek hck aboutpk clk secL) =
      stageDoc t0 sv bf hk navk (nameF d namek) (titleKF d titlek) (hcF d hck)
        (aboutF d aboutpk) (clF d clk) secL := by
  cases hp : d.personal with
  | none =>
    unfold renderHeader nameF titleKF hcF aboutF clF
    rw [hp]
  | some p =>
    unfold renderHeader
    rw [hp]
    dsimp only
    rw [show (stageDoc t0 sv bf hk navk namek titlek hck aboutpk clk secL).root =
      stageRoot hk navk namek titlek hck aboutpk clk secL from rfl]
    rw [stage_setName_total p.name hk navk namek titlek hck aboutpk clk secL hN_hk hN_navk]
    rw [stage_setTitle_total p.title hk navk _ titlek hck aboutpk clk secL hT_hk hT_navk
      (optRegion_none _ p.name (fun s => [Node.text s]) namek hT_namek (fun s => find_none_single _ _ rfl rfl))]
    rw [stage_setAbout_total p.summary hk navk _ _ hck aboutpk clk secL hA_hk hA_navk
      (optRegion_none _ p.name (fun s => [Node.text s]) namek hA_namek (fun s => find_none_single _ _ rfl rfl))
      (optRegion_none _ p.title (fun s => [Node.text s]) titlek hA_titlek (fun s => find_none_single _ _ rfl rfl))
      hA_hck]
    rw [stage_renderContacts_total d hk navk _ _ hck _ clk secL
      hHC_hk hHC_navk
      (optRegion_none _ p.name (fun s => [Node.text s]) namek hHC_namek (fun s => find_none_single _ _ rfl rfl))
      (optRegion_none _ p.title (fun s => [Node.text s]) titlek hHC_titlek (fun s => find_none_single _ _ rfl rfl))
      hCL_hk hCL_navk
      (optRegion_none _ p.name (fun s => [Node.text s]) namek hCL_namek (fun s => find_none_single _ _ rfl rfl))
      (optRegion_none _ p.title (fun s => [Node.text s]) titlek hCL_titlek (fun s => find_none_single _ _ rfl rfl))
      hCL_hck
      (optRegion_none _ p.summary (fun s => [Node.raw s]) aboutpk hCL_aboutpk (fun s => find_none_single _ _ rfl rfl))]
    unfold stageDoc nameF titleKF hcF aboutF clF
    rw [hp]

theorem hasAnyId_implies_idMeta (n : Node) (h : hasAnyId n = true) : idMeta n = true := by
  simp [idMeta, h]

/-- `renderSections` over the skeleton renders exactly the declared mount
points. -/
theorem stage_renderSections (d : Data) (t0 : String) (sv : List (String × String))
    (bf : Option String) (hk navk namek titlek hck aboutpk clk : List Node)
    (L : List (Sec × List Node))
    (hss : d.sections = some (L.map Prod.fst))
    (h1 : findInList hasAnyId hk = none)
    (h2 : findInList hasAnyId navk = none)
    (h3 : findInList hasAnyId namek = none)
    (h4 : findInList hasAnyId titlek = none)
    (h5 : findInList hasAnyId hck = none)
    (h6 : findInList hasAnyId aboutpk = none)
    (h7 : findInList hasAnyId clk = none)
    (hnodup : (L.map (fun q => q.1.id)).Nodup)
    (hresv : ∀ q ∈ L, q.1.id ≠ "about" ∧ q.1.id ≠ "header-contacts" ∧ q.1.id ≠ "contact-links")
    (hcont : ∀ q ∈ L, findInList idMeta q.2 = none) :
    (renderSections d
        (stageDoc t0 sv bf hk navk namek titlek hck aboutpk clk
          (L.map (fun q => mkSecEl q.1.id q.2)))).1 =
      stageDoc t0 sv bf hk navk namek titlek hck aboutpk clk
        (L.map (fun q => rendSecEl d q.1 q.2)) := by
  have hfold := stage_render_secs d L [] hk navk namek titlek hck aboutpk clk
    h1 h2 h3 h4 h5 h6 h7 hnodup hresv
    (fun q hq => find_mono_list hasAnyId idMeta hasAnyId_implies_idMeta q.2 (hcont q hq))
    (fun q _ => rfl)
  rw [List.nil_append, List.nil_append] at hfold
  unfold renderSections
  rw [hss]
  dsimp only
  rw [renderSectionsGo_fst]
  rw [show (stageDoc t0 sv bf hk navk namek titlek hck aboutpk clk
    (L.map (fun q => mkSecEl q.1.id q.2))).root =
    stageRoot hk navk namek titlek hck aboutpk clk
      (L.map (fun q => mkSecEl q.1.id q.2)) from rfl]
  rw [hfold]
  rfl

/-- `generateNavigation` over the skeleton rewrites exactly the nav menu,
and only when enabled. -/
theorem stage_generateNavigation (d : Data) (t0 : String) (sv : List (String × String))
    (bf : Option String) (hk navk namek titlek hck aboutpk clk secL : List Node)
    (ss : List Sec) (hss : d.sections = some ss)
    (hhk : findInList (fun n => hasClass n "nav-menu") hk = none) :
    generateNavigation d (stageDoc t0 sv bf hk navk namek titlek hck aboutpk clk secL) =
      stageDoc t0 sv bf hk (navF d ss navk) namek titlek hck aboutpk clk secL := by
  unfold generateNavigation navF
  rw [hss]
  by_cases he : navEnabled d
  · simp only [he, Option.isSome_some, Bool.and_self, if_true]
    rw [show (stageDoc t0 sv bf hk navk namek titlek hck aboutpk clk secL).root =
      stageRoot hk navk namek titlek hck aboutpk clk secL from rfl]
    rw [stage_upd_navmenu (ss.map navEntry) hk navk namek titlek hck aboutpk clk secL hhk]
    rfl
  · simp only [he]
    rfl

/-- Closure of the name region under any selector that ignores text nodes. -/
theorem find_none_nameF (p : Node → Bool) (d : Data) (namek : List Node)
    (h : findInList p namek = none) (htxt : ∀ s, p (Node.text s) = false) :
    findInList p (nameF d namek) = none := by
  unfold nameF
  cases d.personal with
  | none => exact h
  | some q =>
    exact optRegion_none p q.name (fun s => [Node.text s]) namek h
      (fun s => find_none_single _ _ (htxt s) rfl)

/-- Closure of the title region. -/
theorem find_none_titleKF (p : Node → Bool) (d : Data) (titlek : List Node)
    (h : findInList p titlek = none) (htxt : ∀ s, p (Node.text s) = false) :
    findInList p (titleKF d titlek) = none := by
  unfold titleKF
  cases d.personal with
  | none => exact h
  | some q =>
    exact optRegion_none p q.title (fun s => [Node.text s]) titlek h
      (fun s => find_none_single _ _ (htxt s) rfl)

/-- Closure of the summary region. -/
theorem find_none_aboutF (p : Node → Bool) (d : Data) (aboutpk : List Node)
    (h : findInList p aboutpk = none) (hraw : ∀ s, p (Node.raw s) = false) :
    findInList p (aboutF d aboutpk) = none := by
  unfold aboutF
  cases d.personal with
  | none => exact h
  | some q =>
    exact optRegion_none p q.summary (fun s => [Node.raw s]) aboutpk h
      (fun s => find_none_single _ _ (hraw s) rfl)

/-- Closure of the header contact strip. -/
theorem find_none_hcF (p : Node → Bool) (d : Data) (hck : List Node)
    (h : findInList p hck = none)
    (hmap : ∀ cs : List Contact, findInList p (cs.map contactHeaderLink) = none) :
    findInList p (hcF d hck) = none := by
  unfold hcF
  cases d.personal with
  | none => exact h
  | some _ =>
    cases d.contacts with
    | none => exact h
    | some cs => exact hmap cs

/-- Closure of the contact block. -/
theorem find_none_clF (p : Node → Bool) (d : Data) (clk : List Node)
    (h : findInList p clk = none)
    (hmap : ∀ cs : List Contact, findInList p (cs.map contactLinkP) = none) :
    findInList p (clF d clk) = none := by
  unfold clF
  cases d.personal with
  | none => exact h
  | some _ =>
    cases d.contacts with
    | none => exact h
    | some cs => exact hmap cs

/-- Closure of the nav menu region. -/
theorem find_none_navF (p : Node → Bool) (d : Data) (ss : List Sec) (navk : List Node)
    (h : findInList p navk = none)
    (hmap : findInList p (ss.map navEntry) = none) :
    findInList p (navF d ss navk) = none := by
  unfold navF
  by_cases he : navEnabled d
  · rw [if_pos he]; exact hmap
  · rw [if_neg he]; exact h

theorem find_none_map_mem {α : Type} (g : α → Node) (p : Node → Bool) :
    ∀ l : List α, (∀ x ∈ l, p (g x) = false ∧ findInNode p (g x) = none) →
    findInList p (l.map g) = none
  | [], _ => rfl
  | x :: xs, h => by
    rw [List.map_cons, find_none_cons]
    exact ⟨(h x (List.mem_cons_self x xs)).1, (h x (List.mem_cons_self x xs)).2,
      find_none_map_mem g p xs (fun y hy => h y (List.mem_cons_of_mem x hy))⟩

/-- A selector below another in the implication order is falsified wherever
the stronger one is. -/
theorem pred_false_of_false (p q : Node → Bool) (himp : ∀ n, p n = true → q n = true)
    (n : Node) (h : q n = false) : p n = false := by
  cases hp : p n
  · rfl
  · rw [himp n hp] at h
    cases h

/-- The head tail `updateMeta` leaves behind is inert for every selector that
ignores the meta tag. -/
theorem find_none_metaTail (p : Node → Bool) (d : Data)
    (hm : ∀ ds, p (metaNode ds) = false) :
    findInList p (metaTail d) = none := by
  unfold metaTail
  cases d.meta with
  | none => rfl
  | some m =>
    dsimp only
    cases m.description with
    | none => rfl
    | some ds =>
      dsimp only
      by_cases hds : ds.isEmpty
      · rw [hds]
        rfl
      · have hds' : ds.isEmpty = false := by simpa using hds
        rw [hds']
        try dsimp only
        exact find_none_single _ _ (hm ds) rfl

/-- `updateMeta` on a meta-free skeleton: retitle and append the freshly
created description tag to the head. -/
theorem stage_updateMeta_append (d : Data) (t0 : String) (sv : List (String × String))
    (bf : Option String) (hk navk namek titlek hck aboutpk clk secL : List Node)
    (hhk : findInList isMetaDesc hk = none)
    (hnavk : findInList isMetaDesc navk = none)
    (hnamek : findInList isMetaDesc namek = none)
    (htitlek : findInList isMetaDesc titlek = none)
    (hhck : findInList isMetaDesc hck = none)
    (haboutpk : findInList isMetaDesc aboutpk = none)
    (hclk : findInList isMetaDesc clk = none)
    (hsecL : findInList isMetaDesc secL = none) :
    updateMeta d (stageDoc t0 sv bf hk navk namek titlek hck aboutpk clk secL) =
      stageDoc (titleFn d t0) sv bf (hk ++ metaTail d) navk namek titlek hck aboutpk
        clk secL := by
  have hfind := stage_find_meta_none hk navk namek titlek hck aboutpk clk secL
    hhk hnavk hnamek htitlek hhck haboutpk hclk hsecL
  cases hm : d.meta with
  | none =>
    unfold updateMeta titleFn metaTail
    rw [hm]
    dsimp only
    rw [List.append_nil]
  | some m =>
    cases hmt : m.title with
    | none =>
      cases hmd : m.description with
      | none =>
        unfold updateMeta titleFn metaTail
        rw [hm]
        dsimp only
        rw [hmt, hmd]
        dsimp only
        rw [List.append_nil]
      | some ds =>
        by_cases hds : ds.isEmpty = true
        · unfold updateMeta titleFn metaTail
          rw [hm]
          dsimp only
          rw [hmt, hmd]
          dsimp only
          rw [if_pos hds, if_pos hds, List.append_nil]
        · unfold updateMeta titleFn metaTail
          rw [hm]
          dsimp only
          rw [hmt, hmd]
          dsimp only
          rw [if_neg hds, if_neg hds]
          rw [show (stageDoc t0 sv bf hk navk namek titlek hck aboutpk clk secL).root =
            stageRoot hk navk namek titlek hck aboutpk clk secL from rfl]
          rw [hfind]
          dsimp only
          rw [stage_upd_head_append
            (Node.elem "meta" [("name", "description"), ("content", ds)] [])
            hk navk namek titlek hck aboutpk clk secL]
          rfl
    | some t =>
      by_cases ht : t.isEmpty = true
      · cases hmd : m.description with
        | none =>
          unfold updateMeta titleFn metaTail
          rw [hm]
          dsimp only
          rw [hmt, hmd]
          dsimp only
          rw [if_pos ht, if_pos ht, List.append_nil]
        | some ds =>
          by_cases hds : ds.isEmpty = true
          · unfold updateMeta titleFn metaTail
            rw [hm]
            dsimp only
            rw [hmt, hmd]
            dsimp only
            rw [if_pos ht, if_pos ht, if_pos hds, if_pos hds, List.append_nil]
          · unfold updateMeta titleFn metaTail
            rw [hm]
            dsimp only
            rw [hmt, hmd]
            dsimp only
            rw [if_pos ht, if_pos ht, if_neg hds, if_neg hds]
            rw [show (stageDoc t0 sv bf hk navk namek titlek hck aboutpk clk secL).root =
              stageRoot hk navk namek titlek hck aboutpk clk secL from rfl]
            rw [hfind]
            dsimp only
            rw [stage_upd_head_append
              (Node.elem "meta" [("name", "description"), ("content", ds)] [])
              hk navk namek titlek hck aboutpk clk secL]
            rfl
      · cases hmd : m.description with
        | none =>
          unfold updateMeta titleFn metaTail
          rw [hm]
          dsimp only
          rw [hmt, hmd]
          dsimp only
          rw [if_neg ht, if_neg ht, List.append_nil]
          rfl
        | some ds =>
          by_cases hds : ds.isEmpty = true
          · unfold updateMeta titleFn metaTail
            rw [hm]
            dsimp only
            rw [hmt, hmd]
            dsimp only
            rw [if_neg ht, if_neg ht, if_pos hds, if_pos hds, List.append_nil]
            rfl
          · unfold updateMeta titleFn metaTail
            rw [hm]
            dsimp only
            rw [hmt, hmd]
            dsimp only
            rw [if_neg ht, if_neg ht, if_neg hds, if_neg hds]
            rw [show ({stageDoc t0 sv bf hk navk namek titlek hck aboutpk clk secL
                with title := t} : Document).root =
              stageRoot hk navk namek titlek hck aboutpk clk secL from rfl]
            rw [hfind]
            dsimp only
            rw [stage_upd_head_append
              (Node.elem "meta" [("name", "description"), ("content", ds)] [])
              hk navk namek titlek hck aboutpk clk secL]
            rfl

/-- `updateMeta` is a fixed point on the skeleton a first pass leaves behind:
the title is already `titleFn` and the description tag, when created, is
rewritten in place to the same content. -/
theorem stage_updateMeta_fix (d : Data) (t0 : String) (sv : List (String × String))
    (bf : Option String) (hk navk namek titlek hck aboutpk clk secL : List Node)
    (hhk : findInList isMetaDesc hk = none) :
    updateMeta d (stageDoc (titleFn d t0) sv bf (hk ++ metaTail d) navk namek titlek
        hck aboutpk clk secL) =
      stageDoc (titleFn d t0) sv bf (hk ++ metaTail d) navk namek titlek hck aboutpk
        clk secL := by
  cases hm : d.meta with
  | none =>
    unfold updateMeta
    rw [hm]
  | some m =>
    cases hmd : m.description with
    | none =>
      cases hmt : m.title with
      | none =>
        unfold updateMeta
        rw [hm]
        dsimp only
        rw [hmt, hmd]
      | some t =>
        by_cases ht : t.isEmpty = true
        · unfold updateMeta
          rw [hm]
          dsimp only
          rw [hmt, hmd]
          dsimp only
          rw [if_pos ht]
        · have htf : titleFn d t0 = t := by
            unfold titleFn
            rw [hm]
            dsimp only
            rw [hmt]
            dsimp only
            rw [if_neg ht]
          rw [htf]
          unfold updateMeta
          rw [hm]
          dsimp only
          rw [hmt, hmd]
          dsimp only
          rw [if_neg ht]
          rfl
    | some ds =>
      by_cases hds : ds.isEmpty = true
      · cases hmt : m.title with
        | none =>
          unfold updateMeta
          rw [hm]
          dsimp only
          rw [hmt, hmd]
          dsimp only
          rw [if_pos hds]
        | some t =>
          by_cases ht : t.isEmpty = true
          · unfold updateMeta
            rw [hm]
            dsimp only
            rw [hmt, hmd]
            dsimp only
            rw [if_pos ht, if_pos hds]
          · have htf : titleFn d t0 = t := by
              unfold titleFn
              rw [hm]
              dsimp only
              rw [hmt]
              dsimp only
              rw [if_neg ht]
            rw [htf]
            unfold updateMeta
            rw [hm]
            dsimp only
            rw [hmt, hmd]
            dsimp only
            rw [if_neg ht, if_pos hds]
            rfl
      · have hmtail : metaTail d = [metaNode ds] := by
          unfold metaTail
          rw [hm]
          dsimp only
          rw [hmd]
          dsimp only
          rw [if_neg hds]
        have hfindL : findInList isMetaDesc (hk ++ metaTail d) = some (metaNode ds) := by
          rw [hmtail, find_append, hhk]
          exact find_cons_pos _ _ _ rfl
        have hupd : updInList isMetaDesc
            (fun n =>
              match n with
              | Node.elem t a cs => Node.elem t (attrSet a "content" ds) cs
              | other => other)
            (hk ++ metaTail d) = some (hk ++ metaTail d) := by
          rw [hmtail, upd_append, findInList_none_upd _ _ hk hhk]
          dsimp only
          rw [upd_cons_pos _ _ _ _ rfl]
          rfl
        cases hmt : m.title with
        | none =>
          unfold updateMeta
          rw [hm]
          dsimp only
          rw [hmt, hmd]
          dsimp only
          rw [if_neg hds]
          rw [show (stageDoc (titleFn d t0) sv bf (hk ++ metaTail d) navk namek titlek
              hck aboutpk clk secL).root =
            stageRoot (hk ++ metaTail d) navk namek titlek hck aboutpk clk secL from rfl]
          rw [stage_find_meta_some (metaNode ds) (hk ++ metaTail d) navk namek titlek
            hck aboutpk clk secL hfindL]
          dsimp only
          rw [show docUpdate isMetaDesc
              (fun n =>
                match n with
                | Node.elem t a cs => Node.elem t (attrSet a "content" ds) cs
                | other => other)
              (stageRoot (hk ++ metaTail d) navk namek titlek hck aboutpk clk secL) =
            stageRoot (hk ++ metaTail d) navk namek titlek hck aboutpk clk secL from
            stage_upd_meta_content _ (hk ++ metaTail d) (hk ++ metaTail d) navk namek
              titlek hck aboutpk clk secL hupd]
          rfl
        | some t =>
          by_cases ht : t.isEmpty = true
          · unfold updateMeta
            rw [hm]
            dsimp only
            rw [hmt, hmd]
            dsimp only
            rw [if_pos ht, if_neg hds]
            rw [show (stageDoc (titleFn d t0) sv bf (hk ++ metaTail d) navk namek titlek
                hck aboutpk clk secL).root =
              stageRoot (hk ++ metaTail d) navk namek titlek hck aboutpk clk secL from rfl]
            rw [stage_find_meta_some (metaNode ds) (hk ++ metaTail d) navk namek titlek
              hck aboutpk clk secL hfindL]
            dsimp only
            rw [show docUpdate isMetaDesc
                (fun n =>
                  match n with
                  | Node.elem t a cs => Node.elem t (attrSet a "content" ds) cs
                  | other => other)
                (stageRoot (hk ++ metaTail d) navk namek titlek hck aboutpk clk secL) =
              stageRoot (hk ++ metaTail d) navk namek titlek hck aboutpk clk secL from
              stage_upd_meta_content _ (hk ++ metaTail d) (hk ++ metaTail d) navk namek
                titlek hck aboutpk clk secL hupd]
            rfl
          · have htf : titleFn d t0 = t := by
              unfold titleFn
              rw [hm]
              dsimp only
              rw [hmt]
              dsimp only
              rw [if_neg ht]
            rw [htf]
            unfold updateMeta
            rw [hm]
            dsimp only
            rw [hmt, hmd]
            dsimp only
            rw [if_neg ht, if_neg hds]
            rw [show ({stageDoc t sv bf (hk ++ metaTail d) navk namek titlek hck aboutpk
                clk secL with title := t} : Document).root =
              stageRoot (hk ++ metaTail d) navk namek titlek hck aboutpk clk secL from rfl]
            rw [stage_find_meta_some (metaNode ds) (hk ++ metaTail d) navk namek titlek
              hck aboutpk clk secL hfindL]
            dsimp only
            rw [show docUpdate isMetaDesc
                (fun n =>
                  match n with
                  | Node.elem t a cs => Node.elem t (attrSet a "content" ds) cs
                  | other => other)
                (stageRoot (hk ++ metaTail d) navk namek titlek hck aboutpk clk secL) =
              stageRoot (hk ++ metaTail d) navk namek titlek hck aboutpk clk secL from
              stage_upd_meta_content _ (hk ++ metaTail d) (hk ++ metaTail d) navk namek
                titlek hck aboutpk clk secL hupd]
            rfl

/-- Re-rendering a heading: the first child of a rendered container is the
`h2` itself, so its attributes and the computed title are reproduced. -/
theorem headingFor_fixed (sec : Sec) (content tl : List Node) :
    headingFor sec (Node.elem "div" [("class", "container")]
        (headingFor sec (Node.elem "div" [("class", "container")] content) :: tl)) =
      headingFor sec (Node.elem "div" [("class", "container")] content) := by
  cases hf : findInList (fun n => hasTag n "h2") content with
  | none =>
    have hh : headingFor sec (Node.elem "div" [("class", "container")] content) =
        Node.elem "h2" [] [Node.text sec.title] := by
      unfold headingFor
      dsimp only [Node.kids]
      rw [hf]
    rw [hh]
    unfold headingFor
    dsimp only [Node.kids]
    rw [find_cons_pos _ _ _ rfl]
  | some n =>
    cases n with
    | elem t a cs =>
      have hh : headingFor sec (Node.elem "div" [("class", "container")] content) =
          Node.elem "h2" a [Node.text sec.title] := by
        unfold headingFor
        dsimp only [Node.kids]
        rw [hf]
      rw [hh]
      unfold headingFor
      dsimp only [Node.kids]
      rw [find_cons_pos _ _ _ rfl]
    | text s =>
      have hh : headingFor sec (Node.elem "div" [("class", "container")] content) =
          Node.elem "h2" [] [Node.text sec.title] := by
        unfold headingFor
        dsimp only [Node.kids]
        rw [hf]
      rw [hh]
      unfold headingFor
      dsimp only [Node.kids]
      rw [find_cons_pos _ _ _ rfl]
    | raw s =>
      have hh : headingFor sec (Node.elem "div" [("class", "container")] content) =
          Node.elem "h2" [] [Node.text sec.title] := by
        unfold headingFor
        dsimp only [Node.kids]
        rw [hf]
      rw [hh]
      unfold headingFor
      dsimp only [Node.kids]
      rw [find_cons_pos _ _ _ rfl]

/-- A rendered mount point is a fixed point of the per-section body. -/
theorem rendSecEl_fixed (d : Data) (sec : Sec) (content : List Node) :
    rendSecEl d sec
        (headingFor sec (Node.elem "div" [("class", "container")] content) ::
          rendererTail d sec) =
      rendSecEl d sec content := by
  unfold rendSecEl
  rw [headingFor_fixed]

theorem rendSec_list_fixed (d : Data) :
    ∀ M : List (Sec × List Node),
      M.map (fun q => rendSecEl d q.1
        (headingFor q.1 (Node.elem "div" [("class", "container")] q.2) ::
          rendererTail d q.1)) =
      M.map (fun q => rendSecEl d q.1 q.2)
  | [] => rfl
  | q :: M => by
    rw [List.map_cons, List.map_cons, rendSecEl_fixed, rendSec_list_fixed d M]

/-- A heading computed over id-free content is itself id-free. -/
theorem idMeta_free_headingFor (sec : Sec) (content : List Node)
    (hcont : findInList idMeta content = none) :
    idMeta (headingFor sec (Node.elem "div" [("class", "container")] content)) = false ∧
    findInNode idMeta
      (headingFor sec (Node.elem "div" [("class", "container")] content)) = none := by
  unfold headingFor
  dsimp only [Node.kids]
  cases hf : findInList (fun n => hasTag n "h2") content with
  | none =>
    exact ⟨rfl, by rw [findInNode_elem]; exact find_none_single _ _ rfl rfl⟩
  | some n =>
    cases n with
    | elem t a cs =>
      have hm : idMeta (Node.elem t a cs) = false :=
        find_none_found_list idMeta (fun n => hasTag n "h2") content _ hcont hf
      have ha : hasAnyId (Node.elem t a cs) = false :=
        pred_false_of_false hasAnyId idMeta hasAnyId_implies_idMeta _ hm
      exact ⟨ha, by rw [findInNode_elem]; exact find_none_single _ _ rfl rfl⟩
    | text s =>
      exact ⟨rfl, by rw [findInNode_elem]; exact find_none_single _ _ rfl rfl⟩
    | raw s =>
      exact ⟨rfl, by rw [findInNode_elem]; exact find_none_single _ _ rfl rfl⟩

/-- Rendered mount-point contents stay id-free. -/
theorem idMeta_free_rendSecContent (d : Data) (sec : Sec) (content : List Node)
    (hcont : findInList idMeta content = none) :
    findInList idMeta
      (headingFor sec (Node.elem "div" [("class", "container")] content) ::
        rendererTail d sec) = none := by
  rw [find_none_cons]
  exact ⟨(idMeta_free_headingFor sec content hcont).1,
    (idMeta_free_headingFor sec content hcont).2, idMeta_free_rendererTail d sec⟩

theorem optRegion_idem (o : Option String) (new : String → List Node) (old : List Node) :
    optRegion o new (optRegion o new old) = optRegion o new old := by
  unfold optRegion
  cases o with
  | none => rfl
  | some s =>
    dsimp only
    by_cases hs : s.isEmpty = true
    · simp only [if_pos hs]
    · simp only [if_neg hs]

theorem nameF_idem (d : Data) (old : List Node) :
    nameF d (nameF d old) = nameF d old := by
  unfold nameF
  cases d.personal with
  | none => rfl
  | some p =>
    dsimp only
    exact optRegion_idem p.name _ old

theorem titleKF_idem (d : Data) (old : List Node) :
    titleKF d (titleKF d old) = titleKF d old := by
  unfold titleKF
  cases d.personal with
  | none => rfl
  | some p =>
    dsimp only
    exact optRegion_idem p.title _ old

theorem aboutF_idem (d : Data) (old : List Node) :
    aboutF d (aboutF d old) = aboutF d old := by
  unfold aboutF
  cases d.personal with
  | none => rfl
  | some p =>
    dsimp only
    exact optRegion_idem p.summary _ old

theorem hcF_idem (d : Data) (old : List Node) :
    hcF d (hcF d old) = hcF d old := by
  unfold hcF
  cases d.personal with
  | none => rfl
  | some p =>
    dsimp only
    cases d.contacts with
    | none => rfl
    | some cs => rfl

theorem clF_idem (d : Data) (old : List Node) :
    clF d (clF d old) = clF d old := by
  unfold clF
  cases d.personal with
  | none => rfl
  | some p =>
    dsimp only
    cases d.contacts with
    | none => rfl
    | some cs => rfl

theorem navF_idem (d : Data) (ss : List Sec) (old : List Node) :
    navF d ss (navF d ss old) = navF d ss old := by
  unfold navF
  by_cases he : navEnabled d = true
  · simp only [if_pos he]
  · simp only [if_neg he]

/-- One full `renderPortfolio` pass over the skeleton, given the effect of
its meta step: every region is rewritten to its region-final value. -/
theorem stage_renderPass (d : Data) (t0 t1 : String) (sv : List (String × String))
    (bf : Option String) (hk hk2 navk namek titlek hck aboutpk clk : List Node)
    (L : List (Sec × List Node))
    (hss : d.sections = some (L.map Prod.fst))
    (hmeta : updateMeta d (stageDoc t0 sv bf hk navk namek titlek hck aboutpk clk
        (L.map (fun q => mkSecEl q.1.id q.2))) =
      stageDoc t1 sv bf hk2 navk namek titlek hck aboutpk clk
        (L.map (fun q => mkSecEl q.1.id q.2)))
    (hN_hk2 : findInList (fun n => hasClass n "name") hk2 = none)
    (hT_hk2 : findInList (fun n => hasClass n "title") hk2 = none)
    (hA_hk2 : findInList (fun n => hasId n "about") hk2 = none)
    (hHC_hk2 : findInList (fun n => hasId n "header-contacts") hk2 = none)
    (hCL_hk2 : findInList (fun n => hasId n "contact-links") hk2 = none)
    (hNav_hk2 : findInList (fun n => hasClass n "nav-menu") hk2 = none)
    (hAny_hk2 : findInList hasAnyId hk2 = none)
    (hN_navk : findInList (fun n => hasClass n "name") navk = none)
    (hT_navk : findInList (fun n => hasClass n "title") navk = none)
    (hT_namek : findInList (fun n => hasClass n "title") namek = none)
    (hA_navk : findInList (fun n => hasId n "about") navk = none)
    (hA_namek : findInList (fun n => hasId n "about") namek = none)
    (hA_titlek : findInList (fun n => hasId n "about") titlek = none)
    (hA_hck : findInList (fun n => hasId n "about") hck = none)
    (hHC_navk : findInList (fun n => hasId n "header-contacts") navk = none)
    (hHC_namek : findInList (fun n => hasId n "header-contacts") namek = none)
    (hHC_titlek : findInList (fun n => hasId n "header-contacts") titlek = none)
    (hCL_navk : findInList (fun n => hasId n "contact-links") navk = none)
    (hCL_namek : findInList (fun n => hasId n "contact-links") namek = none)
    (hCL_titlek : findInList (fun n => hasId n "contact-links") titlek = none)
    (hCL_hck : findInList (fun n => hasId n "contact-links") hck = none)
    (hCL_aboutpk : findInList (fun n => hasId n "contact-links") aboutpk = none)
    (hAny_navk : findInList hasAnyId navk = none)
    (hAny_namek : findInList hasAnyId namek = none)
    (hAny_titlek : findInList hasAnyId titlek = none)
    (hAny_hck : findInList hasAnyId hck = none)
    (hAny_aboutpk : findInList hasAnyId aboutpk = none)
    (hAny_clk : findInList hasAnyId clk = none)
    (hnodup : (L.map (fun q => q.1.id)).Nodup)
    (hresv : ∀ q ∈ L, q.1.id ≠ "about" ∧ q.1.id ≠ "header-contacts" ∧
      q.1.id ≠ "contact-links")
    (hcont : ∀ q ∈ L, findInList idMeta q.2 = none) :
    (renderPass d (stageDoc t0 sv bf hk navk namek titlek hck aboutpk clk
        (L.map (fun q => mkSecEl q.1.id q.2)))).1 =
      stageDoc t1 sv bf hk2 (navF d (L.map Prod.fst) navk) (nameF d namek)
        (titleKF d titlek) (hcF d hck) (aboutF d aboutpk) (clF d clk)
        (L.map (fun q => rendSecEl d q.1 q.2)) := by
  have hAny_nameF : findInList hasAnyId (nameF d namek) = none :=
    find_none_nameF hasAnyId d namek hAny_namek (fun s => rfl)
  have hAny_titleKF : findInList hasAnyId (titleKF d titlek) = none :=
    find_none_titleKF hasAnyId d titlek hAny_titlek (fun s => rfl)
  have hAny_aboutF : findInList hasAnyId (aboutF d aboutpk) = none :=
    find_none_aboutF hasAnyId d aboutpk hAny_aboutpk (fun s => rfl)
  have hAny_hcF : findInList hasAnyId (hcF d hck) = none :=
    find_none_hcF hasAnyId d hck hAny_hck
      (fun cs => find_none_map contactHeaderLink hasAnyId
        (fun c => ⟨pred_false_of_false hasAnyId idMeta hasAnyId_implies_idMeta _
            (idMeta_free_contactHeaderLink c).1,
          find_mono_node hasAnyId idMeta hasAnyId_implies_idMeta _
            (idMeta_free_contactHeaderLink c).2⟩) cs)
  have hAny_clF : findInList hasAnyId (clF d clk) = none :=
    find_none_clF hasAnyId d clk hAny_clk
      (fun cs => find_none_map contactLinkP hasAnyId
        (fun c => ⟨pred_false_of_false hasAnyId idMeta hasAnyId_implies_idMeta _
            (idMeta_free_contactLinkP c).1,
          find_mono_node hasAnyId idMeta hasAnyId_implies_idMeta _
            (idMeta_free_contactLinkP c).2⟩) cs)
  rw [show (renderPass d (stageDoc t0 sv bf hk navk namek titlek hck aboutpk clk
      (L.map (fun q => mkSecEl q.1.id q.2)))).1 =
    generateNavigation d (renderSections d (renderHeader d (updateMeta d
      (stageDoc t0 sv bf hk navk namek titlek hck aboutpk clk
        (L.map (fun q => mkSecEl q.1.id q.2)))))).1 from rfl]
  rw [hmeta]
  rw [stage_renderHeader d t1 sv bf hk2 navk namek titlek hck aboutpk clk
    (L.map (fun q => mkSecEl q.1.id q.2))
    hN_hk2 hN_navk hT_hk2 hT_navk hT_namek hA_hk2 hA_navk hA_namek hA_titlek hA_hck
    hHC_hk2 hHC_navk hHC_namek hHC_titlek hCL_hk2 hCL_navk hCL_namek hCL_titlek
    hCL_hck hCL_aboutpk]
  rw [stage_renderSections d t1 sv bf hk2 navk (nameF d namek) (titleKF d titlek)
    (hcF d hck) (aboutF d aboutpk) (clF d clk) L hss
    hAny_hk2 hAny_navk hAny_nameF hAny_titleKF hAny_hcF hAny_aboutF hAny_clF
    hnodup hresv hcont]
  rw [stage_generateNavigation d t1 sv bf hk2 navk (nameF d namek) (titleKF d titlek)
    (hcF d hck) (aboutF d aboutpk) (clF d clk)
    (L.map (fun q => rendSecEl d q.1 q.2)) (L.map Prod.fst) hss hNav_hk2]

/-- A canonical static page: the mount-point skeleton with stale placeholder
content in every region and one mount point per entry of `L`. -/
def staticDoc (L : List (Sec × List Node)) : Document :=
  stageDoc "Static" [] none [] [Node.elem "li" [] [Node.text "stale"]]
    [Node.text "Static Name"] [Node.text "Static Title"] []
    [Node.text "Static summary"] [] (L.map (fun q => mkSecEl q.1.id q.2))

/-- The mount-point contents after one pass, paired with their sections. -/
def rerenderPair (d : Data) (q : Sec × List Node) : Sec × List Node :=
  (q.1, headingFor q.1 (Node.elem "div" [("class", "container")] q.2) ::
    rendererTail d q.1)

/-- C7: for every fixed Data Document and the canonical page skeleton whose
mount points carry the document's section ids (distinct, none of them a
reserved static id) and id-free stale contents, running the full render pass
twice in succession yields exactly the same final document as running it
once: every pass clears then repopulates each section container, the header
contact strips, the nav menu, and rewrites the meta description tag it
created in place. -/
theorem render_pass_idempotent (d : Data) (L : List (Sec × List Node))
    (hss : d.sections = some (L.map Prod.fst))
    (hnodup : (L.map (fun q => q.1.id)).Nodup)
    (hresv : ∀ q ∈ L, q.1.id ≠ "about" ∧ q.1.id ≠ "header-contacts" ∧
      q.1.id ≠ "contact-links")
    (hcont : ∀ q ∈ L, findInList idMeta q.2 = none) :
    (renderPass d (renderPass d (staticDoc L)).1).1 =
      (renderPass d (staticDoc L)).1 := by
  -- the head region updateMeta leaves behind is inert for every page selector
  have hN_mt : findInList (fun n => hasClass n "name") (metaTail d) = none :=
    find_none_metaTail _ d (fun ds => rfl)
  have hT_mt : findInList (fun n => hasClass n "title") (metaTail d) = none :=
    find_none_metaTail _ d (fun ds => rfl)
  have hA_mt : findInList (fun n => hasId n "about") (metaTail d) = none :=
    find_none_metaTail _ d (fun ds => rfl)
  have hHC_mt : findInList (fun n => hasId n "header-contacts") (metaTail d) = none :=
    find_none_metaTail _ d (fun ds => rfl)
  have hCL_mt : findInList (fun n => hasId n "contact-links") (metaTail d) = none :=
    find_none_metaTail _ d (fun ds => rfl)
  have hNav_mt : findInList (fun n => hasClass n "nav-menu") (metaTail d) = none :=
    find_none_metaTail _ d (fun ds => rfl)
  have hAny_mt : findInList hasAnyId (metaTail d) = none :=
    find_none_metaTail _ d (fun ds => rfl)
  -- the stale mount points carry no meta tag
  have hsecL_meta : findInList isMetaDesc (L.map (fun q => mkSecEl q.1.id q.2)) = none := by
    refine find_none_map_mem _ _ L (fun q hq => ⟨rfl, ?_⟩)
    rw [show mkSecEl q.1.id q.2 = Node.elem "section" [("id", q.1.id)]
      [Node.elem "div" [("class", "container")] q.2] from rfl]
    rw [findInNode_elem]
    refine find_none_single _ _ rfl ?_
    rw [findInNode_elem]
    exact find_mono_list isMetaDesc idMeta isMetaDesc_implies_idMeta q.2 (hcont q hq)
  -- pass 1: the meta step appends the description tag to the empty head
  have hmeta1 : updateMeta d (staticDoc L) =
      stageDoc (titleFn d "Static") [] none (metaTail d)
        [Node.elem "li" [] [Node.text "stale"]] [Node.text "Static Name"]
        [Node.text "Static Title"] [] [Node.text "Static summary"] []
        (L.map (fun q => mkSecEl q.1.id q.2)) := by
    have h := stage_updateMeta_append d "Static" [] none []
      [Node.elem "li" [] [Node.text "stale"]] [Node.text "Static Name"]
      [Node.text "Static Title"] [] [Node.text "Static summary"] []
      (L.map (fun q => mkSecEl q.1.id q.2))
      rfl rfl rfl rfl rfl rfl rfl hsecL_meta
    rw [List.nil_append] at h
    exact h
  have hp1 : (renderPass d (staticDoc L)).1 =
      stageDoc (titleFn d "Static") [] none (metaTail d)
        (navF d (L.map Prod.fst) [Node.elem "li" [] [Node.text "stale"]])
        (nameF d [Node.text "Static Name"]) (titleKF d [Node.text "Static Title"])
        (hcF d []) (aboutF d [Node.text "Static summary"]) (clF d [])
        (L.map (fun q => rendSecEl d q.1 q.2)) :=
    stage_renderPass d "Static" (titleFn d "Static") [] none [] (metaTail d)
      [Node.elem "li" [] [Node.text "stale"]] [Node.text "Static Name"]
      [Node.text "Static Title"] [] [Node.text "Static summary"] [] L hss hmeta1
      hN_mt hT_mt hA_mt hHC_mt hCL_mt hNav_mt hAny_mt
      rfl rfl rfl rfl rfl rfl rfl rfl rfl rfl rfl rfl rfl rfl rfl
      rfl rfl rfl rfl rfl rfl
      hnodup hresv hcont
  -- the second pass seen as a pass over the rendered mount points
  have hfst : (L.map (rerenderPair d)).map Prod.fst = L.map Prod.fst := by
    rw [List.map_map]
    rfl
  have hbridge : L.map (fun q => rendSecEl d q.1 q.2) =
      (L.map (rerenderPair d)).map (fun q => mkSecEl q.1.id q.2) := by
    rw [List.map_map]
    rfl
  have hsec_fix : (L.map (rerenderPair d)).map (fun q => rendSecEl d q.1 q.2) =
      L.map (fun q => rendSecEl d q.1 q.2) := by
    rw [List.map_map]
    exact rendSec_list_fixed d L
  have hss2 : d.sections = some ((L.map (rerenderPair d)).map Prod.fst) := by
    rw [hfst]
    exact hss
  have hnodup2 : ((L.map (rerenderPair d)).map (fun q => q.1.id)).Nodup := by
    rw [List.map_map]
    exact hnodup
  have hresv2 : ∀ q ∈ L.map (rerenderPair d), q.1.id ≠ "about" ∧
      q.1.id ≠ "header-contacts" ∧ q.1.id ≠ "contact-links" := by
    intro q hq
    obtain ⟨q0, hq0, hEq⟩ := List.mem_map.mp hq
    subst hEq
    exact hresv q0 hq0
  have hcont2 : ∀ q ∈ L.map (rerenderPair d), findInList idMeta q.2 = none := by
    intro q hq
    obtain ⟨q0, hq0, hEq⟩ := List.mem_map.mp hq
    subst hEq
    exact idMeta_free_rendSecContent d q0.1 q0.2 (hcont q0 hq0)
  -- pass 2: the meta step rewrites the created tag in place
  have hmeta2 : updateMeta d (stageDoc (titleFn d "Static") [] none (metaTail d)
      (navF d (L.map Prod.fst) [Node.elem "li" [] [Node.text "stale"]])
      (nameF d [Node.text "Static Name"]) (titleKF d [Node.text "Static Title"])
      (hcF d []) (aboutF d [Node.text "Static summary"]) (clF d [])
      ((L.map (rerenderPair d)).map (fun q => mkSecEl q.1.id q.2))) =
    stageDoc (titleFn d "Static") [] none (metaTail d)
      (navF d (L.map Prod.fst) [Node.elem "li" [] [Node.text "stale"]])
      (nameF d [Node.text "Static Name"]) (titleKF d [Node.text "Static Title"])
      (hcF d []) (aboutF d [Node.text "Static summary"]) (clF d [])
      ((L.map (rerenderPair d)).map (fun q => mkSecEl q.1.id q.2)) := by
    have h := stage_updateMeta_fix d "Static" [] none []
      (navF d (L.map Prod.fst) [Node.elem "li" [] [Node.text "stale"]])
      (nameF d [Node.text "Static Name"]) (titleKF d [Node.text "Static Title"])
      (hcF d []) (aboutF d [Node.text "Static summary"]) (clF d [])
      ((L.map (rerenderPair d)).map (fun q => mkSecEl q.1.id q.2)) rfl
    rw [List.nil_append] at h
    exact h
  -- region closures for the second pass
  have hmk_nav : findInList marked
      (navF d (L.map Prod.fst) [Node.elem "li" [] [Node.text "stale"]]) = none :=
    find_none_navF marked d (L.map Prod.fst) [Node.elem "li" [] [Node.text "stale"]]
      rfl (marked_free_navEntries (L.map Prod.fst))
  have hnameReg : ∀ p : Node → Bool, (∀ s, p (Node.text s) = false) →
      findInList p (nameF d [Node.text "Static Name"]) = none :=
    fun p hp => find_none_nameF p d _ (find_none_single p _ (hp "Static Name") rfl) hp
  have htitleReg : ∀ p : Node → Bool, (∀ s, p (Node.text s) = false) →
      findInList p (titleKF d [Node.text "Static Title"]) = none :=
    fun p hp => find_none_titleKF p d _ (find_none_single p _ (hp "Static Title") rfl) hp
  have haboutReg : ∀ p : Node → Bool, (∀ s, p (Node.text s) = false) →
      (∀ s, p (Node.raw s) = false) →
      findInList p (aboutF d [Node.text "Static summary"]) = none :=
    fun p ht hr =>
      find_none_aboutF p d _ (find_none_single p _ (ht "Static summary") rfl) hr
  have hhcReg : ∀ p : Node → Bool, (∀ n, p n = true → idMeta n = true) →
      findInList p (hcF d []) = none :=
    fun p himp => find_none_hcF p d [] rfl
      (fun cs => find_none_map contactHeaderLink p
        (fun c => ⟨pred_false_of_false p idMeta himp _
            (idMeta_free_contactHeaderLink c).1,
          find_mono_node p idMeta himp _ (idMeta_free_contactHeaderLink c).2⟩) cs)
  have hclReg : ∀ p : Node → Bool, (∀ n, p n = true → idMeta n = true) →
      findInList p (clF d []) = none :=
    fun p himp => find_none_clF p d [] rfl
      (fun cs => find_none_map contactLinkP p
        (fun c => ⟨pred_false_of_false p idMeta himp _
            (idMeta_free_contactLinkP c).1,
          find_mono_node p idMeta himp _ (idMeta_free_contactLinkP c).2⟩) cs)
  have hp2 : (renderPass d (stageDoc (titleFn d "Static") [] none (metaTail d)
      (navF d (L.map Prod.fst) [Node.elem "li" [] [Node.text "stale"]])
      (nameF d [Node.text "Static Name"]) (titleKF d [Node.text "Static Title"])
      (hcF d []) (aboutF d [Node.text "Static summary"]) (clF d [])
      ((L.map (rerenderPair d)).map (fun q => mkSecEl q.1.id q.2)))).1 =
    stageDoc (titleFn d "Static") [] none (metaTail d)
      (navF d ((L.map (rerenderPair d)).map Prod.fst)
        (navF d (L.map Prod.fst) [Node.elem "li" [] [Node.text "stale"]]))
      (nameF d (nameF d [Node.text "Static Name"]))
      (titleKF d (titleKF d [Node.text "Static Title"]))
      (hcF d (hcF d [])) (aboutF d (aboutF d [Node.text "Static summary"]))
      (clF d (clF d []))
      ((L.map (rerenderPair d)).map (fun q => rendSecEl d q.1 q.2)) :=
    stage_renderPass d (titleFn d "Static") (titleFn d "Static") [] none
      (metaTail d) (metaTail d)
      (navF d (L.map Prod.fst) [Node.elem "li" [] [Node.text "stale"]])
      (nameF d [Node.text "Static Name"]) (titleKF d [Node.text "Static Title"])
      (hcF d []) (aboutF d [Node.text "Static summary"]) (clF d [])
      (L.map (rerenderPair d)) hss2 hmeta2
      hN_mt hT_mt hA_mt hHC_mt hCL_mt hNav_mt hAny_mt
      (find_mono_list _ marked hasClass_name_implies_marked _ hmk_nav)
      (find_mono_list _ marked hasClass_title_implies_marked _ hmk_nav)
      (hnameReg _ (fun s => rfl))
      (find_mono_list _ marked
        (fun n h => idMeta_implies_marked n (hasId_implies_idMeta "about" n h)) _ hmk_nav)
      (hnameReg _ (fun s => rfl))
      (htitleReg _ (fun s => rfl))
      (hhcReg _ (hasId_implies_idMeta "about"))
      (find_mono_list _ marked
        (fun n h => idMeta_implies_marked n
          (hasId_implies_idMeta "header-contacts" n h)) _ hmk_nav)
      (hnameReg _ (fun s => rfl))
      (htitleReg _ (fun s => rfl))
      (find_mono_list _ marked
        (fun n h => idMeta_implies_marked n
          (hasId_implies_idMeta "contact-links" n h)) _ hmk_nav)
      (hnameReg _ (fun s => rfl))
      (htitleReg _ (fun s => rfl))
      (hhcReg _ (hasId_implies_idMeta "contact-links"))
      (haboutReg _ (fun s => rfl) (fun s => rfl))
      (find_mono_list _ marked
        (fun n h => idMeta_implies_marked n (hasAnyId_implies_idMeta n h)) _ hmk_nav)
      (hnameReg _ (fun s => rfl))
      (htitleReg _ (fun s => rfl))
      (hhcReg _ hasAnyId_implies_idMeta)
      (haboutReg _ (fun s => rfl) (fun s => rfl))
      (hclReg _ hasAnyId_implies_idMeta)
      hnodup2 hresv2 hcont2
  -- chain the two passes and collapse the idempotent region rewrites
  rw [hp1, hbridge, hp2, hfst,
    navF_idem d (L.map Prod.fst) [Node.elem "li" [] [Node.text "stale"]],
    nameF_idem d [Node.text "Static Name"], titleKF_idem d [Node.text "Static Title"],
    hcF_idem d ([] : List Node), aboutF_idem d [Node.text "Static summary"],
    clF_idem d ([] : List Node), hsec_fix, hbridge]

/-- A one-section Data Document used to exercise the idempotence theorem. -/
def idemSec : Sec :=
  { id := "exp", title := "Experience", type := "text", items := none,
    content := some "hello" }

def idemData : Data :=
  { meta := some { title := some "T", description := some "D" },
    personal := some { name := some "N", title := some "Engineer", summary := some "S" },
    contacts := some [{ label := "Mail", url := "mailto:a@b.c", icon := "fas fa-envelope" }],
    theme := none,
    config := some { navigation := some { enabled := true } },
    sections := some [idemSec] }

/-- The idempotence theorem at a concrete document: a one-section data set
over its matching skeleton. -/
theorem render_pass_idempotent_witness :
    (renderPass idemData
        (renderPass idemData (staticDoc [(idemSec, [Node.text "old"])])).1).1 =
      (renderPass idemData (staticDoc [(idemSec, [Node.text "old"])])).1 :=
  render_pass_idempotent idemData [(idemSec, [Node.text "old"])] rfl (by decide)
    (by decide) (by decide)
